import Mathlib

/-!
Verification of the arena-game core: win/tiebreak resolver, fixed-timestep
physics stepping, pause-safe physics clock, body rescale lifecycle, power-up
collection arbitration, full restart, and fair-start placement.

Each definition is a shallow embedding of the corresponding TypeScript
function; machine floats are modelled as exact rationals, JS `Date.now()`
timestamps as naturals, and `Math.sin`-based pseudo-random values as explicit
parameters constrained to the sine range.
-/

namespace ZF

/-! ### Win/tiebreak resolver (useAIBallsStore, AIBall module)

Embedding of the `useAIBallsStore` score state and of
`getWinnerBySecondaryCondition`, `getMaxPowerupsCollected`,
`incrementPowerUps`, `incrementPlayerPowerUps`, `registerBall`, `resetBalls`.
-/

/-- Record of one AI ball in `useAIBallsStore.aiBalls`: id, position
(a THREE.Vector3, modelled componentwise), collected count, ordered
collection timestamps (`Date.now()` values), and color. -/
structure AIBallRec where
  id : Nat
  px : ℚ
  py : ℚ
  pz : ℚ
  powerUpsCollected : Nat
  collectionTimestamps : List Nat
  color : String
  deriving DecidableEq, Repr

/-- The score-relevant slice of `useAIBallsStore`: the player's collected
count and timestamps plus the registered AI balls. -/
structure ScoreState where
  playerPowerUpsCollected : Nat
  playerCollectionTimestamps : List Nat
  aiBalls : List AIBallRec
  deriving DecidableEq, Repr

/-- The `reason` union type of the winner object. -/
inductive WinReason where
  | primary
  | mostPowerups
  | tiebreaker
  deriving DecidableEq, Repr

/-- The winner object returned by `getWinnerBySecondaryCondition` (and stored
by `setWinner`). `playerWasInTie` is only populated on the tiebreaker path,
matching the optional field in the source. -/
structure Winner where
  id : Nat
  isPlayer : Bool
  color : String
  reason : WinReason
  powerupsCount : Nat
  playerWasInTie : Option Bool
  deriving DecidableEq, Repr

/-- The player's hard-coded color used at every `setWinner`/winner-return
site in the source. -/
def playerColor : String := "#1e88e5"

/-- Embedding of `getMaxPowerupsCollected`: fold over the AI balls starting
from the player's count, keeping the larger value. -/
def getMaxPowerupsCollected (s : ScoreState) : Nat :=
  s.aiBalls.foldl
    (fun m b => if b.powerUpsCollected > m then b.powerUpsCollected else m)
    s.playerPowerUpsCollected

/-- Intermediate record pushed onto `topCollectors` in
`getWinnerBySecondaryCondition`. -/
structure TopCollector where
  id : Nat
  isPlayer : Bool
  color : String
  count : Nat
  lastTimestamp : Nat
  deriving DecidableEq, Repr

/-- The player's `topCollectors` record; `lastTimestamp` is
`playerCollectionTimestamps[playerPowerUpsCollected - 1] || 0` from the
source. -/
def playerTopOf (s : ScoreState) (maxP : Nat) : TopCollector :=
  ⟨0, true, playerColor, maxP,
    ((s.playerCollectionTimestamps.get? (s.playerPowerUpsCollected - 1)).getD 0)⟩

/-- An AI ball's `topCollectors` record; `lastTimestamp` is
`collectionTimestamps[powerUpsCollected - 1] || 0` from the source. -/
def aiTopOf (b : AIBallRec) (maxP : Nat) : TopCollector :=
  ⟨b.id, false, b.color, maxP,
    ((b.collectionTimestamps.get? (b.powerUpsCollected - 1)).getD 0)⟩

/-- The `topCollectors` list: the player first (when at the maximum), then
every AI ball at the maximum, in store order. -/
def topCollectorsOf (s : ScoreState) (maxP : Nat) : List TopCollector :=
  (if s.playerPowerUpsCollected = maxP then [playerTopOf s maxP] else []) ++
  ((s.aiBalls.filter (fun b => b.powerUpsCollected = maxP)).map (fun b => aiTopOf b maxP))

/-- Claim-side reading of "the timestamp of the N-th collection" (1-based,
with the source's `|| 0` default for a missing entry). -/
def nthTimestamp (ts : List Nat) (n : Nat) : Nat := (ts.get? (n - 1)).getD 0

/-- Stable insertion into a list kept in ascending `lastTimestamp` order;
together with `sortByTimestamp` this models the ES2019 stable
`Array.prototype.sort((a, b) => a.lastTimestamp - b.lastTimestamp)`. -/
def insertByTimestamp (c : TopCollector) : List TopCollector → List TopCollector
  | [] => [c]
  | d :: ds =>
    if c.lastTimestamp ≤ d.lastTimestamp then c :: d :: ds
    else d :: insertByTimestamp c ds

/-- Stable ascending sort by `lastTimestamp` (insertion sort). -/
def sortByTimestamp : List TopCollector → List TopCollector
  | [] => []
  | c :: cs => insertByTimestamp c (sortByTimestamp cs)

/-- Embedding of `getWinnerBySecondaryCondition`: primary check (player
first, then AI balls in store order), then most-powerups, then the
timestamp tiebreak with the `playerWasInTie` flag. -/
def getWinnerBySecondaryCondition (s : ScoreState) : Option Winner :=
  if s.playerPowerUpsCollected ≥ 5 then
    some ⟨0, true, playerColor, WinReason.primary, s.playerPowerUpsCollected, none⟩
  else
    match s.aiBalls.find? (fun b => b.powerUpsCollected ≥ 5) with
    | some b => some ⟨b.id, false, b.color, WinReason.primary, b.powerUpsCollected, none⟩
    | none =>
      let maxP := getMaxPowerupsCollected s
      if maxP = 0 then none
      else
        match topCollectorsOf s maxP with
        | [] => none
        | [c] => some ⟨c.id, c.isPlayer, c.color, WinReason.mostPowerups, maxP, none⟩
        | c1 :: c2 :: rest =>
          let sorted := sortByTimestamp (c1 :: c2 :: rest)
          let playerWasInTie := (c1 :: c2 :: rest).any (fun c => c.isPlayer)
          match sorted with
          | [] => none
          | w :: _ =>
            some ⟨w.id, w.isPlayer, w.color, WinReason.tiebreaker, maxP, some playerWasInTie⟩

/-- Embedding of `incrementPowerUps id`: bump the matching AI ball's count,
append the current `Date.now()` timestamp, and report whether the new count
reached 5 (the primary win threshold). -/
def incrementPowerUps (id : Nat) (now : Nat) (s : ScoreState) : ScoreState × Bool :=
  let isWinner := s.aiBalls.foldl
    (fun w b => if b.id = id then decide (b.powerUpsCollected + 1 ≥ 5) else w) false
  ({ s with aiBalls := s.aiBalls.map (fun b =>
      if b.id = id then
        { b with
          powerUpsCollected := b.powerUpsCollected + 1,
          collectionTimestamps := b.collectionTimestamps ++ [now] }
      else b) },
   isWinner)

/-- Embedding of `incrementPlayerPowerUps`: bump the player count, append
the timestamp, and report whether the new count reached 5. -/
def incrementPlayerPowerUps (now : Nat) (s : ScoreState) : ScoreState × Bool :=
  ({ s with
      playerPowerUpsCollected := s.playerPowerUpsCollected + 1,
      playerCollectionTimestamps := s.playerCollectionTimestamps ++ [now] },
   s.playerPowerUpsCollected + 1 ≥ 5)

/-- Embedding of `registerBall`: drop any record with the same id, then push
a fresh record that preserves the existing count and timestamps (or starts
at zero for a new id). -/
def registerBall (id : Nat) (px py pz : ℚ) (color : String) (s : ScoreState) : ScoreState :=
  let existing := s.aiBalls.find? (fun b => b.id = id)
  let powerUpsCollected := (existing.map (fun b => b.powerUpsCollected)).getD 0
  let collectionTimestamps := (existing.map (fun b => b.collectionTimestamps)).getD []
  { s with aiBalls :=
      (s.aiBalls.filter (fun b => b.id ≠ id)) ++
      [⟨id, px, py, pz, powerUpsCollected, collectionTimestamps, color⟩] }

/-- Embedding of `resetBalls`: zero the player count and timestamps and zero
every AI ball's count and timestamps, keeping ids, positions, colors. -/
def resetBalls (s : ScoreState) : ScoreState :=
  { playerPowerUpsCollected := 0,
    playerCollectionTimestamps := [],
    aiBalls := s.aiBalls.map (fun b =>
      { b with powerUpsCollected := 0, collectionTimestamps := [] }) }

/-- The list of per-entity collected counts (player first, then the AI balls
in store order); used to state the claims about the maximum. -/
def entityCounts (s : ScoreState) : List Nat :=
  s.playerPowerUpsCollected :: s.aiBalls.map (fun b => b.powerUpsCollected)

/-! ### Fixed-timestep stepping loop (PhysicsWorld.tsx ‵useFrame‵ callback)

The per-frame callback keeps a persistent accumulator, a previous-time ref
and a just-resumed flag; each unpaused frame adds the (0.1 s-capped) delta
and drains the accumulator in steps of exactly 1/60 s, at most 4 per frame,
zeroing the accumulator when the 4-step cap is hit.
-/

/-- The mutable refs of the `PhysicsWorld` stepping loop:
`accumulatorRef`, `prevTimeRef`, `justResumedRef`. -/
structure SteppingState where
  accumulator : ℚ
  prevTime : Option ℚ
  justResumed : Bool
  deriving DecidableEq, Repr

/-- The `while (accumulator >= fixedTimeStep)` drain loop: subtract 1/60 per
step, count steps, and on reaching 4 steps zero the accumulator and break.
The loop terminates through the 4-step cap; `fuel` is the structural mirror
of that cap (`fuel = 4 - steps` at every call, so the zero-fuel base case is
unreachable from `drainAccumulator`). -/
def drainAux : Nat → ℚ → Nat → ℚ × Nat
  | 0, acc, steps => (acc, steps)
  | fuel + 1, acc, steps =>
    if acc ≥ 1/60 then
      let acc1 := acc - 1/60
      let steps1 := steps + 1
      if steps1 ≥ 4 then (0, steps1)
      else drainAux fuel acc1 steps1
    else (acc, steps)

/-- The drain loop as entered each frame: step counter starts at 0. -/
def drainAccumulator (acc : ℚ) : ℚ × Nat := drainAux 4 acc 0

/-- One invocation of the `useFrame` stepping callback at wall-clock `time`
(seconds): early-out while paused, a time-initialisation frame when
`prevTime` is unset, the 1/120 s post-resume delta, the 0.1 s delta cap,
then the accumulator drain.  Returns the new refs and the number of
`world.step(1/60)` calls executed this frame. -/
def stepFrame (isPaused : Bool) (time : ℚ) (s : SteppingState) : SteppingState × Nat :=
  if isPaused then (s, 0)
  else
    match s.prevTime with
    | none => ({ s with prevTime := some time }, 0)
    | some prev =>
      let delta0 : ℚ := if s.justResumed then 1/120 else time - prev
      let delta : ℚ := min delta0 (1/10)
      let acc := s.accumulator + delta
      let r := drainAccumulator acc
      ({ accumulator := r.1, prevTime := some time, justResumed := false }, r.2)

/-- Feed a list of frame times through the stepping loop (all unpaused),
returning the final state and the total number of physics steps. -/
def runFrames (times : List ℚ) (s : SteppingState) : SteppingState × Nat :=
  times.foldl (fun (p : SteppingState × Nat) t =>
    let r := stepFrame false t p.1
    (r.1, p.2 + r.2)) (s, 0)

/-- Frame times at a uniform 60 fps cadence after `t0`: the k-th frame
happens at `t0 + (k+1)/60`, so every frame delta is exactly 1/60 s. -/
def uniformFrameTimes (t0 : ℚ) (n : Nat) : List ℚ :=
  (List.range n).map (fun k => t0 + ((k : ℚ) + 1) * (1/60))

/-! ### Pause-safe physics clock (usePhysicsClock, useDifficulty.tsx)

Embedding of the `usePhysicsClock` zustand store: `tick` takes the current
wall-clock time in milliseconds (it divides by 1000 exactly as the source
does) and returns the delta in seconds.
-/

/-- The `usePhysicsClock` store fields. -/
structure ClockState where
  lastTimestamp : ℚ
  isPaused : Bool
  accumulatedTime : ℚ
  pauseStartTime : Option ℚ
  isFirstFrameAfterResume : Bool
  deriving DecidableEq, Repr

/-- Embedding of `usePhysicsClock.setPaused`: acts only on an actual state
change; pausing records the pause start, resuming re-bases `lastTimestamp`
to now and arms the first-frame-after-resume flag. `now` is the source's
`performance.now() / 1000` in seconds. -/
def clockSetPaused (paused : Bool) (now : ℚ) (s : ClockState) : ClockState :=
  if paused = s.isPaused then s
  else if paused then
    { s with isPaused := true, pauseStartTime := some now }
  else
    { s with
        isPaused := false,
        lastTimestamp := now,
        isFirstFrameAfterResume := true,
        pauseStartTime := none }

/-- Embedding of `usePhysicsClock.reset`: re-base the clock to now with zero
accumulated time and all flags cleared. -/
def clockReset (now : ℚ) (_s : ClockState) : ClockState :=
  { lastTimestamp := now,
    isPaused := false,
    accumulatedTime := 0,
    pauseStartTime := none,
    isFirstFrameAfterResume := false }

/-- Embedding of `usePhysicsClock.tick`: `currentTimeMs` is in milliseconds
(converted to seconds on entry, as in the source).  Paused: return 0 with no
bookkeeping.  First frame after resume: return 1/120 s.  Otherwise return
the elapsed time capped at 1/30 s and record the new timestamp. -/
def clockTick (currentTimeMs : ℚ) (s : ClockState) : ClockState × ℚ :=
  let currentTime := currentTimeMs / 1000
  if s.isPaused then (s, 0)
  else if s.isFirstFrameAfterResume then
    ({ s with isFirstFrameAfterResume := false, lastTimestamp := currentTime }, 1/120)
  else
    let delta := currentTime - s.lastTimestamp
    let delta1 := if delta > 1/30 then (1/30 : ℚ) else delta
    ({ s with lastTimestamp := currentTime }, delta1)

/-! ### Body lifecycle: creation and rescale replacement (Ball.tsx, AIBall)

Both the player ball and the AI balls use base radius 0.5 and base mass 5,
derive `radius = baseRadius * scale` and `mass = baseMass * scale³`, and set
the solid-sphere inertia `I = 2 * mass * radius * radius / 5` identically on
all three axes at every body-construction site.
-/

/-- A 3-component vector (CANNON.Vec3 / THREE.Vector3). -/
structure Vec3 where
  x : ℚ
  y : ℚ
  z : ℚ
  deriving DecidableEq, Repr

/-- The kinematic state captured from a body just before a rescale swap:
`body.position`, `body.velocity`, `body.angularVelocity`. -/
structure BodyKinematics where
  position : Vec3
  velocity : Vec3
  angularVelocity : Vec3
  deriving DecidableEq, Repr

/-- The fields of a freshly constructed CANNON.Body that the claims are
about: mass, sphere radius, kinematic state, per-axis inertia, sleep flag. -/
structure BodyDesc where
  mass : ℚ
  radius : ℚ
  position : Vec3
  velocity : Vec3
  angularVelocity : Vec3
  inertia : Vec3
  allowSleep : Bool
  deriving DecidableEq, Repr

/-- Base radius of both the player ball (`baseRadius`) and the AI balls
(`sphereBaseRadius`). -/
def baseRadius : ℚ := 1/2

/-- Base mass of both the player ball and the AI balls. -/
def baseMass : ℚ := 5

/-- Derived radius `baseRadius * ballScale`. -/
def ballRadius (ballScale : ℚ) : ℚ := baseRadius * ballScale

/-- Derived mass `baseMass * Math.pow(ballScale, 3)`. -/
def ballMass (ballScale : ℚ) : ℚ := baseMass * ballScale ^ 3

/-- The solid-sphere inertia `I = 2 * mass * radius * radius / 5` computed
at every body-construction site. -/
def sphereInertiaOf (mass radius : ℚ) : ℚ := 2 * mass * radius * radius / 5

/-- Embedding of the player scale-change effect (Ball.tsx): capture the old
body's kinematics, build the new body at the captured position with the new
radius/mass/inertia, raise `position.y` to the new radius when it is below
it, then restore velocity and angular velocity. Returns the body as
registered (`bodyRef.current = newBody; setPlayerBody(newBody)`). -/
def playerRescaleSwap (captured : BodyKinematics) (ballScale : ℚ) : BodyDesc :=
  let radius := ballRadius ballScale
  let mass := ballMass ballScale
  let inertiaI := sphereInertiaOf mass radius
  let posY := if captured.position.y < radius then radius else captured.position.y
  { mass := mass,
    radius := radius,
    position := { captured.position with y := posY },
    velocity := captured.velocity,
    angularVelocity := captured.angularVelocity,
    inertia := ⟨inertiaI, inertiaI, inertiaI⟩,
    allowSleep := true }

/-- Embedding of the player initial body construction (`createPlayerBall`):
start position is passed in (its x/z come from the trigonometric start-angle
computation), velocities start at zero, inertia is the solid-sphere value. -/
def playerCreateBall (ballScale : ℚ) (startX startZ : ℚ) : BodyDesc :=
  let radius := ballRadius ballScale
  let mass := ballMass ballScale
  let inertiaI := sphereInertiaOf mass radius
  { mass := mass,
    radius := radius,
    position := ⟨startX, radius, startZ⟩,
    velocity := ⟨0, 0, 0⟩,
    angularVelocity := ⟨0, 0, 0⟩,
    inertia := ⟨inertiaI, inertiaI, inertiaI⟩,
    allowSleep := true }

/-- Embedding of AIBall's `createPhysicsBody`: used both for initial
creation (with zero velocities) and for the rescale swap (with the captured
velocities); copies position and velocities exactly and sets the
solid-sphere inertia.  AI bodies never sleep. -/
def aiCreatePhysicsBody (ballScale : ℚ) (position velocity angularVelocity : Vec3) : BodyDesc :=
  let radius := ballRadius ballScale
  let mass := ballMass ballScale
  let inertiaI := sphereInertiaOf mass radius
  { mass := mass,
    radius := radius,
    position := position,
    velocity := velocity,
    angularVelocity := angularVelocity,
    inertia := ⟨inertiaI, inertiaI, inertiaI⟩,
    allowSleep := false }

/-- Embedding of the AI scale-change effect (AIBall): the body that is
registered (`bodyRef.current = newBody`) immediately after the old body is
removed — `createPhysicsBody(currentPosition, currentVelocity,
currentAngularVelocity)` followed by a redundant `position.copy`. -/
def aiRescaleSwap (captured : BodyKinematics) (ballScale : ℚ) : BodyDesc :=
  aiCreatePhysicsBody ballScale captured.position captured.velocity captured.angularVelocity

/-- Embedding of `body.applyImpulse(impulse, (0,0,0))` at the body centre:
linear velocity gains `impulse / mass`; the centre application point leaves
the angular velocity unchanged.  Models the random keep-moving kick the AI
rescale effect applies after registering the new body. -/
def applyImpulseCenter (impulse : Vec3) (b : BodyDesc) : BodyDesc :=
  { b with velocity :=
      ⟨b.velocity.x + impulse.x / b.mass,
       b.velocity.y + impulse.y / b.mass,
       b.velocity.z + impulse.z / b.mass⟩ }

/-! ### Game phase (useGame.tsx) and controls (useControls.tsx) -/

/-- The `GamePhase` union of useGame.tsx. -/
inductive GamePhase where
  | startMenu
  | ready
  | playing
  | ended
  deriving DecidableEq, Repr

/-- Embedding of `useGame.end`: only the `playing → ended` transition. -/
def gamePhaseEnd : GamePhase → GamePhase
  | GamePhase.playing => GamePhase.ended
  | p => p

/-- Embedding of `useGame.restart`: unconditionally back to `ready`. -/
def gamePhaseRestart (_p : GamePhase) : GamePhase := GamePhase.ready

/-- The useControls.tsx store fields. -/
structure ControlsState where
  directionX : ℚ
  directionZ : ℚ
  hasPlayerStartedMoving : Bool
  isInputEnabled : Bool
  movementForce : ℚ
  deriving DecidableEq, Repr

/-- Embedding of `setMovementDirection`: with input disabled only zero any
active direction; with input enabled record the direction and latch the
has-started-moving flag on the first nonzero input. -/
def setMovementDirection (x z : ℚ) (s : ControlsState) : ControlsState :=
  if s.isInputEnabled = false then
    if s.directionX ≠ 0 ∨ s.directionZ ≠ 0 then
      { s with directionX := 0, directionZ := 0 }
    else s
  else
    let isMoving := x ≠ 0 ∨ z ≠ 0
    { s with
        directionX := x,
        directionZ := z,
        hasPlayerStartedMoving := s.hasPlayerStartedMoving || decide isMoving }

/-- Embedding of `enableInput`. -/
def enableInput (s : ControlsState) : ControlsState :=
  { s with isInputEnabled := true }

/-- Embedding of `disableInput`: also zeroes the direction. -/
def disableInput (s : ControlsState) : ControlsState :=
  { s with isInputEnabled := false, directionX := 0, directionZ := 0 }

/-- Embedding of `resetPlayerMovementFlag`: clears the flag and the
direction. -/
def resetPlayerMovementFlag (s : ControlsState) : ControlsState :=
  { s with hasPlayerStartedMoving := false, directionX := 0, directionZ := 0 }

/-! ### Scale stores (useBallStore in Ball.tsx, useAIBallScaleStore) -/

/-- Embedding of `useAIBallScaleStore.getScale`: `scales[id] || 1.0`, with
the record modelled as an association list (a falsy stored 0 also yields
1.0, as in JS). -/
def getAIScale (scales : List (Nat × ℚ)) (id : Nat) : ℚ :=
  match scales.find? (fun p => p.1 = id) with
  | some p => if p.2 = 0 then 1 else p.2
  | none => 1

/-- Update an association-list entry (JS `{ ...scales, [id]: v }`). -/
def setAssoc (id : Nat) (v : ℚ) (scales : List (Nat × ℚ)) : List (Nat × ℚ) :=
  (scales.filter (fun p => p.1 ≠ id)) ++ [(id, v)]

/-! ### Combined game state and the power-up collection arbiter (PowerUp.tsx)

`GState` combines the zustand stores and the PowerUp component's local
state/refs that the collection, win and restart flows touch.  Growth-lock
release timers (the 500 ms `setTimeout`s) and the 2 s respawn timer are
deferred continuations; within a single synchronous tick only their arming
is visible, which is what the state below records.
-/

/-- The composed game state. -/
structure GState where
  score : ScoreState
  playerScale : ℚ
  playerIsGrowing : Bool
  aiScales : List (Nat × ℚ)
  aiGrowing : List Nat
  puActive : Bool
  puPosX : ℚ
  puPosZ : ℚ
  puCollected : Nat
  isCollecting : Bool
  isCollectingRef : Bool
  prevPositions : List (ℚ × ℚ)
  controls : ControlsState
  phase : GamePhase
  winner : Option Winner
  isPaused : Bool
  clock : ClockState
  stepping : SteppingState
  hasSelectedLevel : Bool
  deriving DecidableEq, Repr

/-- Embedding of `useBallStore.growBall` acting on the composed state: a no-op
while the growth lock is held, otherwise multiply the scale by 1.25 and take
the lock (released later by a 500 ms timer). -/
def growPlayerBall (g : GState) : GState :=
  if g.playerIsGrowing then g
  else { g with playerIsGrowing := true, playerScale := g.playerScale * (5/4) }

/-- Embedding of `useAIBallScaleStore.growBall id`: a no-op while that ball's
growth lock is held, otherwise multiply its scale (`scales[id] || 1.0`) by
1.25 and take the lock. -/
def growAIBallScale (id : Nat) (g : GState) : GState :=
  if g.aiGrowing.contains id then g
  else
    { g with
        aiGrowing := id :: g.aiGrowing,
        aiScales := setAssoc id (getAIScale g.aiScales id * (5/4)) g.aiScales }

/-- Embedding of `setWinner` (useWinStore) + `end` (useGame) as invoked from
the PowerUp win branches. -/
def finalizeWinner (w : Winner) (g : GState) : GState :=
  { g with winner := some w, phase := gamePhaseEnd g.phase }

/-- Embedding of `handlePlayerCollection`: bail out if either collection
lock is held; otherwise take both locks synchronously, deactivate the
power-up, bump the component counter, grow the player, credit the player in
the score store, and on the 5th power-up finalize a primary win and end the
round.  `now` is the `Date.now()` timestamp recorded for this collection. -/
def handlePlayerCollection (now : Nat) (g : GState) : GState :=
  if g.isCollecting || g.isCollectingRef then g
  else
    let g1 := { g with isCollecting := true, isCollectingRef := true }
    let g2 := { g1 with puActive := false, puCollected := g1.puCollected + 1 }
    let g3 := growPlayerBall g2
    let r := incrementPlayerPowerUps now g3.score
    let g4 := { g3 with score := r.1 }
    if r.2 then
      finalizeWinner
        ⟨0, true, playerColor, WinReason.primary, r.1.playerPowerUpsCollected, some false⟩
        g4
    else g4

/-- Embedding of `handleAICollection ballId ballColor`: same lock framing as
the player handler; credit the AI ball, grow it, and on its 5th power-up
finalize a primary win (re-reading the count from the store, with the
source's fallback of 5). -/
def handleAICollection (now : Nat) (ballId : Nat) (ballColor : String) (g : GState) : GState :=
  if g.isCollecting || g.isCollectingRef then g
  else
    let g1 := { g with isCollecting := true, isCollectingRef := true }
    let g2 := { g1 with puActive := false, puCollected := g1.puCollected + 1 }
    let r := incrementPowerUps ballId now g2.score
    let g3 := { g2 with score := r.1 }
    let g4 := growAIBallScale ballId g3
    if r.2 then
      let currentCount :=
        ((r.1.aiBalls.find? (fun b => b.id = ballId)).map
          (fun b => b.powerUpsCollected)).getD 5
      finalizeWinner ⟨ballId, false, ballColor, WinReason.primary, currentCount, some false⟩ g4
    else g4

/-- A collection event fired during one proximity pass. -/
inductive CollectEvent where
  | player
  | ai (id : Nat)
  deriving DecidableEq, Repr

/-- Squared planar distance; the source compares
`Math.sqrt(dx² + dz²) < 2.0`, which for nonnegative radicands is equivalent
to `dx² + dz² < 4`. -/
def planarDistSq (ax az bx bz : ℚ) : ℚ := (ax - bx) ^ 2 + (az - bz) ^ 2

/-- Whether an AI ball is within the collection radius of the power-up. -/
def aiInRange (g : GState) (b : AIBallRec) : Bool :=
  planarDistSq b.px b.pz g.puPosX g.puPosZ < 4

/-- Whether the player (when a player body exists, with planar position
`p`) is within the collection radius of the power-up. -/
def playerInRange (g : GState) (playerPos : Option (ℚ × ℚ)) : Bool :=
  match playerPos with
  | none => false
  | some p => planarDistSq p.1 p.2 g.puPosX g.puPosZ < 4

/-- Embedding of the PowerUp `useFrame` proximity pass: bail out when the
power-up is inactive or either collection lock is held; otherwise the player
is checked first and collects (with an early return), else the first AI ball
within range (store order) collects.  Returns the new state and the
collection events fired this pass. -/
def proximityPass (playerPos : Option (ℚ × ℚ)) (now : Nat) (g : GState) :
    GState × List CollectEvent :=
  if !g.puActive || g.isCollecting || g.isCollectingRef then (g, [])
  else if playerInRange g playerPos then
    (handlePlayerCollection now g, [CollectEvent.player])
  else
    match g.score.aiBalls.find? (fun b => aiInRange g b) with
    | some b => (handleAICollection now b.id b.color g, [CollectEvent.ai b.id])
    | none => (g, [])

/-- The number of entities simultaneously within the collection radius. -/
def entitiesInRange (playerPos : Option (ℚ × ℚ)) (g : GState) : Nat :=
  (if playerInRange g playerPos then 1 else 0) +
    g.score.aiBalls.countP (fun b => aiInRange g b)

/-- The guard of the PowerUp respawn effect
(`!powerUpState.active && powerUpsCollected <= MAX_POWER_UPS`): when true, a
2-second timer is armed that releases both collection locks and re-activates
the power-up at a freshly chosen position. -/
def respawnScheduled (g : GState) : Bool :=
  !g.puActive && g.puCollected ≤ 12

/-- The body of the respawn timer callback: release both locks and
re-activate the power-up at the chosen position. -/
def respawnFire (x z : ℚ) (g : GState) : GState :=
  { g with
      isCollecting := false,
      isCollectingRef := false,
      puActive := true,
      puPosX := x,
      puPosZ := z }

/-! ### Full restart (GameManager.restartGame, globals.d.ts)

`restartGame` composes the per-store reset functions in a fixed order.  The
restart-time AI respawn positions come from `calculateFairStartPosition`
(trigonometric); they are supplied here as a parameter, as is the wall-clock
time used to re-base the physics clock.
-/

/-- Embedding of `resetGameState`: `resetWin` then `useGame.restart`. -/
def resetGameState (g : GState) : GState :=
  { g with winner := none, phase := gamePhaseRestart g.phase }

/-- Embedding of `resetPhysicsWorld`: drop the player-body reference
(not modelled) and reset the stepping refs via `window.resetPhysicsTiming`. -/
def resetPhysicsWorld (g : GState) : GState :=
  { g with stepping := { accumulator := 0, prevTime := none,
                         justResumed := g.stepping.justResumed } }

/-- Embedding of `resetBallState`: `useBallStore.setScale(1.0)`. -/
def resetBallState (g : GState) : GState :=
  { g with playerScale := 1 }

/-- Embedding of `resetAIBallState`: `resetBalls` on the score store and
`resetScales` on the scale store. -/
def resetAIBallState (g : GState) : GState :=
  { g with score := resetBalls g.score, aiScales := [], aiGrowing := [] }

/-- Embedding of the `reset-ball-positions` event handling: every mounted
AIBall synchronously re-registers itself at a fresh fair position (the
positions and colors are parameters standing for the trigonometric
`calculateFairStartPosition` output and the GameScene color table). -/
def resetBallPositions (fresh : List (Nat × Vec3 × String)) (g : GState) : GState :=
  { g with score :=
      fresh.foldl (fun sc e => registerBall e.1 e.2.1.x e.2.1.y e.2.1.z e.2.2 sc) g.score }

/-- Embedding of the `reset-powerups` event handling in PowerUp.tsx: zero
the component counter, release both locks, keep only the centre in the
previous-position history, and re-activate the power-up at the centre. -/
def resetPowerups (g : GState) : GState :=
  { g with
      puCollected := 0,
      isCollecting := false,
      isCollectingRef := false,
      prevPositions := [(0, 0)],
      puActive := true,
      puPosX := 0,
      puPosZ := 0 }

/-- Embedding of `resetControlsState`: `setMovementDirection(0, 0)`, then
`resetPlayerMovementFlag` when the flag is set, then `disableInput`. -/
def resetControlsState (g : GState) : GState :=
  let c1 := setMovementDirection 0 0 g.controls
  let c2 := if c1.hasPlayerStartedMoving then resetPlayerMovementFlag c1 else c1
  { g with controls := disableInput c2 }

/-- Embedding of `resetPhysicsClock`: `usePhysicsClock.reset()` at the
current wall-clock second count. -/
def resetPhysicsClock (now : ℚ) (g : GState) : GState :=
  { g with clock := clockReset now g.clock }

/-- Embedding of `resetDifficultySelection`. -/
def resetDifficultySelection (g : GState) : GState :=
  { g with hasSelectedLevel := false }

/-- Embedding of `resumeGame`: a no-op unless paused; otherwise clear the
pause flag, reset the stepping refs, unpause the physics clock, and
re-enable input only in the playing phase with a selected level. -/
def resumeGame (now : ℚ) (g : GState) : GState :=
  if g.isPaused = false then g
  else
    let g1 := { g with isPaused := false }
    let g2 := { g1 with stepping := { accumulator := 0, prevTime := none,
                                      justResumed := g1.stepping.justResumed } }
    let g3 := { g2 with clock := clockSetPaused false now g2.clock }
    if g3.phase = GamePhase.playing ∧ g3.hasSelectedLevel then
      { g3 with controls := enableInput g3.controls }
    else g3

/-- Embedding of `GameManager.restartGame`: the reset functions composed in
the source's order (the pointer-lock, camera and audio steps touch only
excluded peripheral state). -/
def restartGame (fresh : List (Nat × Vec3 × String)) (now : ℚ) (g : GState) : GState :=
  resumeGame now
    (resetDifficultySelection
      (resetPhysicsClock now
        (resetControlsState
          (resetPowerups
            (resetBallPositions fresh
              (resetAIBallState
                (resetBallState
                  (resetPhysicsWorld
                    (resetGameState g)))))))))

/-! ### Fair-start placement (calculateFairStartPosition, AIBall module)

The source draws two pseudo-random values with
`Math.sin(id * 12.9898 + seed * 78.233)` and
`Math.sin(id * 43.758 + seed * 36.2364)`; the embedding takes those two sine
outputs as explicit parameters `s1 s2` constrained to the sine range, so the
function is by construction a deterministic function of
(entityId, session seed, start angle).
-/

/-- The declared list of fair spawn distances (21 values, 23.75 .. 25.75 in
steps of 0.1). -/
def fairDistances : List ℚ :=
  [23.75, 23.85, 23.95, 24.05, 24.15, 24.25, 24.35, 24.45,
   24.55, 24.65, 24.75, 24.85, 24.95, 25.05, 25.15, 25.25,
   25.35, 25.45, 25.55, 25.65, 25.75]

/-- The index into `fairDistances`:
`Math.floor((sin * 0.5 + 0.5) * fairDistances.length)`. -/
def fairIndex (s1 : ℚ) : ℤ := ⌊(s1 * (1/2) + 1/2) * (fairDistances.length : ℚ)⌋

/-- The jitter added on top of the chosen fair distance:
`(sin * 0.5 + 0.5) * 0.4 - 0.2`. -/
def fairVariation (s2 : ℚ) : ℚ := (s2 * (1/2) + 1/2) * (2/5) - 1/5

/-- The adjusted spawn distance `fairDistances[randomIndex] + variation`
(the out-of-range index access yields `none`, the analogue of the JS
`undefined` that would poison the arithmetic). -/
def adjustedDistanceOf (s1 s2 : ℚ) : Option ℚ :=
  (fairDistances.get? (fairIndex s1).toNat).map (fun d => d + fairVariation s2)

/-- Embedding of `calculateFairStartPosition` for AI ball `id`: given the
two sine outputs `s1 s2` and the cosine/sine of `startAngle`, return the
`[startX, startZ]` pair. -/
def calculateFairStartPosition (s1 s2 : ℚ) (cosAngle sinAngle : ℚ) : Option (ℚ × ℚ) :=
  (adjustedDistanceOf s1 s2).map (fun d => (cosAngle * d, sinAngle * d))

/-! ### Concrete states used to instantiate the theorems -/

/-- A baseline mid-round composed state: round playing, power-up active at
the centre, no score yet. -/
def gBase : GState :=
  { score := ⟨0, [], []⟩,
    playerScale := 1,
    playerIsGrowing := false,
    aiScales := [],
    aiGrowing := [],
    puActive := true,
    puPosX := 0,
    puPosZ := 0,
    puCollected := 0,
    isCollecting := false,
    isCollectingRef := false,
    prevPositions := [(0, 0)],
    controls := ⟨0, 0, true, true, 13⟩,
    phase := GamePhase.playing,
    winner := none,
    isPaused := false,
    clock := ⟨0, false, 0, none, false⟩,
    stepping := ⟨0, some 0, false⟩,
    hasSelectedLevel := true }

/-- A state with the player and AI ball #3 both within the collection
radius of the centre power-up (planar distances √2 each). -/
def gRace : GState :=
  { gBase with score := ⟨0, [], [⟨3, 1, 1/2, -1, 0, [], "#00FF00"⟩]⟩ }

/-- A state where the player holds 4 power-ups, one collection away from
the primary win; 6 power-ups collected overall. -/
def gFour : GState :=
  { gBase with
      score := ⟨4, [100, 200, 300, 400], [⟨1, 5, 1/2, 5, 2, [150, 250], "#FF0000"⟩]⟩,
      puCollected := 6,
      playerScale := 2 }

/-- A mid-round dirty state used to exercise the full restart. -/
def gDirty : GState :=
  { gBase with
      score := ⟨3, [10, 20, 30], [⟨1, 2, 1/2, -4, 2, [15, 25], "#FF0000"⟩,
                                  ⟨2, 0, 1/2, 6, 1, [18], "#0000FF"⟩]⟩,
      playerScale := 25/16,
      aiScales := [(1, 5/4), (2, 25/16)],
      aiGrowing := [2],
      puActive := false,
      puCollected := 6,
      isCollecting := true,
      isCollectingRef := true,
      controls := ⟨1, 0, true, true, 13⟩,
      isPaused := true,
      clock := ⟨55, true, 0, some 60, false⟩ }

/-- The fresh fair positions fed to the restart in the concrete
instantiation. -/
def freshW : List (Nat × Vec3 × String) :=
  [(1, ⟨3, 1/2, 4⟩, "#FF0000"), (2, ⟨-5, 1/2, 1⟩, "#0000FF")]

/-- A score state with the player and AI ball #2 tied at the maximum of 4;
the player reached 4 at timestamp 1000, AI ball #2 at timestamp 900. -/
def scoreTieW : ScoreState :=
  ⟨4, [100, 200, 300, 1000],
   [⟨2, 0, 0, 0, 4, [50, 60, 70, 900], "#0000FF"⟩,
    ⟨3, 0, 0, 0, 1, [55], "#00FF00"⟩]⟩

/-! ## Theorems -/

/-- C8: for every entity (player and AI) and every scale factor `k`, the
derived radius is `baseRadius * k` with `baseRadius = 0.5`, the derived mass
is `baseMass * k³` with `baseMass = 5`, and every body-construction site —
player initial creation, player rescale replacement, AI creation/rescale —
sets the inertia to `I = (2/5) * mass * radius²` identically on all three
axes. -/
theorem claim_C8 (k : ℚ) (captured : BodyKinematics) (sx sz : ℚ) (p v a : Vec3) :
    ballRadius k = (1/2) * k ∧ baseRadius = 1/2 ∧
    ballMass k = 5 * k ^ 3 ∧ baseMass = 5 ∧
    (playerCreateBall k sx sz).mass = ballMass k ∧
    (playerCreateBall k sx sz).radius = ballRadius k ∧
    (playerRescaleSwap captured k).mass = ballMass k ∧
    (playerRescaleSwap captured k).radius = ballRadius k ∧
    (aiCreatePhysicsBody k p v a).mass = ballMass k ∧
    (aiCreatePhysicsBody k p v a).radius = ballRadius k ∧
    (playerCreateBall k sx sz).inertia =
      ⟨2/5 * ballMass k * (ballRadius k) ^ 2, 2/5 * ballMass k * (ballRadius k) ^ 2,
       2/5 * ballMass k * (ballRadius k) ^ 2⟩ ∧
    (playerRescaleSwap captured k).inertia =
      ⟨2/5 * ballMass k * (ballRadius k) ^ 2, 2/5 * ballMass k * (ballRadius k) ^ 2,
       2/5 * ballMass k * (ballRadius k) ^ 2⟩ ∧
    (aiCreatePhysicsBody k p v a).inertia =
      ⟨2/5 * ballMass k * (ballRadius k) ^ 2, 2/5 * ballMass k * (ballRadius k) ^ 2,
       2/5 * ballMass k * (ballRadius k) ^ 2⟩ := by
  refine ⟨?_, rfl, ?_, rfl, rfl, rfl, rfl, rfl, rfl, rfl, ?_, ?_, ?_⟩ <;>
    simp only [ballRadius, ballMass, baseRadius, baseMass, playerCreateBall,
      playerRescaleSwap, aiCreatePhysicsBody, sphereInertiaOf, Vec3.mk.injEq] <;>
    norm_num <;> ring_nf

/-- C2 counterexample: the player rescale swap does not preserve the
captured position exactly — raising the scale to 1.25 raises the captured
`y = 0.5` to the new radius `0.625`. -/
theorem claim_C2_counterexample :
    (playerRescaleSwap ⟨⟨3, 1/2, -2⟩, ⟨1, 2, 3⟩, ⟨4, 5, 6⟩⟩ (5/4)).position ≠
      (⟨3, 1/2, -2⟩ : Vec3) := by
  have h : ((1 : ℚ)/2) < ballRadius (5/4) := by
    norm_num [ballRadius, baseRadius]
  simp only [playerRescaleSwap, h, if_true, ne_eq, Vec3.mk.injEq, not_and]
  intro _ hy
  rw [ballRadius, baseRadius] at hy
  norm_num at hy

/-- C2 (amended): the rescale body replacement preserves the captured
linear velocity and angular velocity exactly for both the player and the AI
balls, and preserves the captured position exactly for AI balls; the player
body's position is preserved in `x`/`z` while its `y` is raised to the new
radius whenever the captured `y` lies below it (so the player position is
preserved exactly whenever the captured `y` is at least the new radius). -/
theorem claim_C2 (captured : BodyKinematics) (k : ℚ) :
    (playerRescaleSwap captured k).velocity = captured.velocity ∧
    (playerRescaleSwap captured k).angularVelocity = captured.angularVelocity ∧
    (playerRescaleSwap captured k).position.x = captured.position.x ∧
    (playerRescaleSwap captured k).position.z = captured.position.z ∧
    (playerRescaleSwap captured k).position.y = max captured.position.y (ballRadius k) ∧
    (ballRadius k ≤ captured.position.y →
      (playerRescaleSwap captured k).position = captured.position) ∧
    (aiRescaleSwap captured k).position = captured.position ∧
    (aiRescaleSwap captured k).velocity = captured.velocity ∧
    (aiRescaleSwap captured k).angularVelocity = captured.angularVelocity := by
  refine ⟨rfl, rfl, rfl, rfl, ?_, ?_, rfl, rfl, rfl⟩
  · simp only [playerRescaleSwap]
    rcases lt_or_le captured.position.y (ballRadius k) with h | h
    · simp [h, max_eq_right h.le]
    · simp [not_lt.mpr h, max_eq_left h]
  · intro h
    simp only [playerRescaleSwap, not_lt.mpr h, if_false]

/-- C2 witness: a concrete swap at a scale whose new radius lies below the
captured height, where the player position is preserved exactly. -/
theorem claim_C2_witness :
    ballRadius 1 ≤ (1 : ℚ) ∧
    (playerRescaleSwap ⟨⟨2, 1, 7⟩, ⟨1, 0, 0⟩, ⟨0, 1, 0⟩⟩ 1).position = ⟨2, 1, 7⟩ := by
  refine ⟨by norm_num [ballRadius, baseRadius], ?_⟩
  exact (claim_C2 ⟨⟨2, 1, 7⟩, ⟨1, 0, 0⟩, ⟨0, 1, 0⟩⟩ 1).2.2.2.2.2.1
    (by norm_num [ballRadius, baseRadius])

/-- C4: the pause-safe physics clock returns 0 with no bookkeeping while
paused; the first tick after a paused→unpaused transition returns exactly
1/120 s regardless of the elapsed wall-clock time; in normal operation it
returns the elapsed seconds capped at 1/30 s and records the new timestamp;
and `reset` re-bases the timestamp with zero accumulated time and both
flags cleared. -/
theorem claim_C4 :
    (∀ (s : ClockState) (tms : ℚ), s.isPaused = true → clockTick tms s = (s, 0)) ∧
    (∀ (s : ClockState) (t1 t2 t3 : ℚ), s.isPaused = false →
      (clockTick t3 (clockSetPaused false t2 (clockSetPaused true t1 s))).2 = 1/120) ∧
    (∀ (s : ClockState) (tms : ℚ), s.isPaused = false → s.isFirstFrameAfterResume = false →
      clockTick tms s =
        ({ s with lastTimestamp := tms / 1000 }, min (tms / 1000 - s.lastTimestamp) (1/30))) ∧
    (∀ (s : ClockState) (now : ℚ), clockReset now s = ⟨now, false, 0, none, false⟩) := by
  refine ⟨?_, ?_, ?_, fun s now => rfl⟩
  · intro s tms h
    simp [clockTick, h]
  · intro s t1 t2 t3 h
    simp [clockSetPaused, h, clockTick]
  · intro s tms h1 h2
    simp only [clockTick, h1, h2, Bool.false_eq_true, if_false, Prod.mk.injEq, true_and]
    rcases le_or_lt (tms / 1000 - s.lastTimestamp) (1/30) with h | h
    · rw [if_neg (not_lt.mpr h), min_eq_left h]
    · rw [if_pos h, min_eq_right h.le]

/-- C4 witness: pausing at second 5, resuming at second 100 and ticking at
millisecond 999999 yields exactly 1/120 s despite the long pause. -/
theorem claim_C4_witness :
    (clockTick 999999 (clockSetPaused false 100 (clockSetPaused true 5
      ⟨0, false, 0, none, false⟩))).2 = 1/120 :=
  claim_C4.2.1 ⟨0, false, 0, none, false⟩ 5 100 999999 rfl

/-- Full specification of the drain loop, proved by induction on the fuel
(which mirrors `4 - steps`): the step count only grows and never exceeds 4;
reaching 4 steps means the accumulator was zeroed by the cap and held at
least `(4 - steps)/60`; stopping below 4 steps drained exactly
`(n - steps)` subtractions of 1/60 and left less than 1/60; and any actual
subtraction leaves a nonnegative accumulator. -/
theorem drainAux_spec (fuel : Nat) :
    ∀ (acc : ℚ) (steps : Nat), steps + fuel = 4 → steps ≤ 3 →
    (steps ≤ (drainAux fuel acc steps).2 ∧ (drainAux fuel acc steps).2 ≤ 4) ∧
    ((drainAux fuel acc steps).2 = 4 →
      (drainAux fuel acc steps).1 = 0 ∧ ((4 : ℚ) - (steps : ℚ)) * (1/60) ≤ acc) ∧
    ((drainAux fuel acc steps).2 < 4 →
      (drainAux fuel acc steps).1
        = acc - (((drainAux fuel acc steps).2 : ℚ) - (steps : ℚ)) * (1/60) ∧
      (drainAux fuel acc steps).1 < 1/60) ∧
    (steps < (drainAux fuel acc steps).2 → 0 ≤ (drainAux fuel acc steps).1) := by
  induction fuel with
  | zero =>
    intro acc steps h1 h2
    omega
  | succ f ih =>
    intro acc steps h1 h2
    simp only [drainAux]
    split
    · rename_i hge
      split
      · rename_i hcap
        have hs : steps = 3 := by omega
        subst hs
        refine ⟨⟨by norm_num, by norm_num⟩, ?_, ?_, ?_⟩
        · intro _
          refine ⟨rfl, ?_⟩
          push_cast
          linarith
        · intro hlt
          norm_num at hlt
        · intro _
          norm_num
      · rename_i hcap
        have ih1 := ih (acc - 1/60) (steps + 1) (by omega) (by omega)
        obtain ⟨⟨ih1a, ih1b⟩, ih2, ih3, ih4⟩ := ih1
        refine ⟨⟨by omega, ih1b⟩, ?_, ?_, ?_⟩
        · intro h4
          obtain ⟨e1, e2⟩ := ih2 h4
          refine ⟨e1, ?_⟩
          push_cast at e2 ⊢
          linarith
        · intro h4
          obtain ⟨e1, e2⟩ := ih3 h4
          refine ⟨?_, e2⟩
          rw [e1]
          push_cast
          ring
        · intro _
          rcases eq_or_lt_of_le ih1a with heq | hlt2
          · have h4 : (drainAux f (acc - 1/60) (steps + 1)).2 < 4 := by omega
            obtain ⟨e1, _⟩ := ih3 h4
            rw [e1, ← heq]
            push_cast
            simp only [sub_self, zero_mul, sub_zero]
            linarith
          · exact ih4 hlt2
    · rename_i hge
      have hlt : acc < 1/60 := lt_of_not_ge hge
      refine ⟨⟨le_refl _, by omega⟩, ?_, ?_, ?_⟩
      · intro h4
        omega
      · intro _
        refine ⟨?_, hlt⟩
        simp
      · intro h
        omega

/-- The drain loop never takes more than 4 steps. -/
theorem drainAccumulator_le_four (acc : ℚ) : (drainAccumulator acc).2 ≤ 4 :=
  ((drainAux_spec 4 acc 0 rfl (by norm_num)).1).2

/-- Evaluation of the drain at accumulator 1/10 (a 1-second frame delta
after the 0.1 s clamp): exactly 4 steps and a zeroed accumulator. -/
theorem drainAccumulator_tenth : drainAccumulator (1/10 : ℚ) = (0, 4) := by
  obtain ⟨⟨-, hle⟩, h4, h3, -⟩ := drainAux_spec 4 (1/10 : ℚ) 0 rfl (by norm_num)
  rcases eq_or_lt_of_le hle with he | hl
  · obtain ⟨e1, -⟩ := h4 he
    exact Prod.ext_iff.mpr ⟨e1, he⟩
  · exfalso
    obtain ⟨e1, e2⟩ := h3 hl
    have hn : ((drainAux 4 (1/10 : ℚ) 0).2 : ℚ) ≤ 3 := by
      exact_mod_cast Nat.le_of_lt_succ hl
    rw [e1] at e2
    push_cast at e2
    linarith

/-- Evaluation of the drain at accumulator 1/60: exactly one step, nothing
left over. -/
theorem drainAccumulator_sixtieth : drainAccumulator (1/60 : ℚ) = (0, 1) := by
  obtain ⟨⟨-, hle⟩, h4, h3, hpos⟩ := drainAux_spec 4 (1/60 : ℚ) 0 rfl (by norm_num)
  rcases eq_or_lt_of_le hle with he | hl
  · exfalso
    obtain ⟨-, e2⟩ := h4 he
    push_cast at e2
    linarith
  · obtain ⟨e1, e2⟩ := h3 hl
    have hn1 : 1 ≤ (drainAux 4 (1/60 : ℚ) 0).2 := by
      by_contra hc
      have h0 : (drainAux 4 (1/60 : ℚ) 0).2 = 0 := by omega
      rw [e1, h0] at e2
      push_cast at e2
      linarith
    have hnn := hpos hn1
    have hn2 : (drainAux 4 (1/60 : ℚ) 0).2 = 1 := by
      by_contra hc
      have h2le : 2 ≤ (drainAux 4 (1/60 : ℚ) 0).2 := by omega
      have : ((drainAux 4 (1/60 : ℚ) 0).2 : ℚ) ≥ 2 := by exact_mod_cast h2le
      rw [e1] at hnn
      push_cast at hnn
      linarith
    refine Prod.ext_iff.mpr ⟨?_, hn2⟩
    show (drainAux 4 (1/60 : ℚ) 0).1 = (0, 1).1
    rw [e1, hn2]
    push_cast
    ring

/-- One unpaused frame exactly 1/60 s after the previous one, with an empty
accumulator, executes exactly one step and leaves the accumulator empty. -/
theorem stepFrame_unit (t : ℚ) :
    stepFrame false (t + 1/60) ⟨0, some t, false⟩ = (⟨0, some (t + 1/60), false⟩, 1) := by
  have hacc : (0 : ℚ) + min ((t + 1/60) - t) (1/10) = 1/60 := by
    have h1 : (t + 1/60) - t = (1/60 : ℚ) := by ring
    rw [h1, min_eq_left (by norm_num)]
    ring
  simp only [stepFrame, Bool.false_eq_true, if_false]
  rw [hacc, drainAccumulator_sixtieth]

/-- Running `n` frames at the uniform 60 fps cadence from an empty
accumulator executes exactly `n` steps and leaves an empty accumulator. -/
theorem runFrames_uniform (t0 : ℚ) :
    ∀ n : Nat, runFrames (uniformFrameTimes t0 n) ⟨0, some t0, false⟩ =
      (⟨0, some (t0 + (n : ℚ) * (1/60)), false⟩, n) := by
  intro n
  induction n with
  | zero =>
    simp [runFrames, uniformFrameTimes]
  | succ m ihm =>
    have hsplit : uniformFrameTimes t0 (m + 1) =
        uniformFrameTimes t0 m ++ [t0 + ((m : ℚ) + 1) * (1/60)] := by
      simp [uniformFrameTimes, List.range_succ]
    have hstep : stepFrame false (t0 + ((m : ℚ) + 1) * (1/60))
        ⟨0, some (t0 + (m : ℚ) * (1/60)), false⟩ =
        (⟨0, some (t0 + ((m : ℚ) + 1) * (1/60)), false⟩, 1) := by
      have harg : t0 + ((m : ℚ) + 1) * (1/60) = (t0 + (m : ℚ) * (1/60)) + 1/60 := by ring
      rw [harg, stepFrame_unit]
    rw [hsplit]
    simp only [runFrames, List.foldl_append] at ihm ⊢
    rw [ihm]
    simp only [List.foldl_cons, List.foldl_nil, hstep]
    push_cast
    ring_nf

/-- C3: the stepping loop performs no step on any paused frame, executes at
most 4 steps per frame, drains the accumulator in steps of exactly 1/60 s
(leaving less than one step's worth unless the cap zeroed it), zeroes the
accumulator whenever the 4-step cap is hit, processes a single 1-second
frame delta as exactly 4 steps with the remainder discarded, and processes
sixty consecutive 1/60 s frame deltas as exactly 60 steps with an empty
accumulator (nothing discarded). -/
theorem claim_C3 :
    (∀ (s : SteppingState) (time : ℚ), stepFrame true time s = (s, 0)) ∧
    (∀ (isPaused : Bool) (time : ℚ) (s : SteppingState),
      (stepFrame isPaused time s).2 ≤ 4) ∧
    (∀ acc : ℚ, (drainAccumulator acc).2 = 4 → (drainAccumulator acc).1 = 0) ∧
    (∀ acc : ℚ, (drainAccumulator acc).2 < 4 →
      (drainAccumulator acc).1 = acc - ((drainAccumulator acc).2 : ℚ) * (1/60) ∧
      (drainAccumulator acc).1 < 1/60) ∧
    (∀ t0 : ℚ, stepFrame false (t0 + 1) ⟨0, some t0, false⟩ =
      (⟨0, some (t0 + 1), false⟩, 4)) ∧
    (∀ t0 : ℚ, runFrames (uniformFrameTimes t0 60) ⟨0, some t0, false⟩ =
      (⟨0, some (t0 + 1), false⟩, 60)) := by
  refine ⟨fun s time => rfl, ?_, ?_, ?_, ?_, ?_⟩
  · intro isPaused time s
    cases isPaused with
    | true => norm_num [stepFrame]
    | false =>
      cases h : s.prevTime with
      | none => simp [stepFrame, h]
      | some prev =>
        simp only [stepFrame, Bool.false_eq_true, if_false, h]
        exact drainAccumulator_le_four _
  · intro acc h4
    exact ((drainAux_spec 4 acc 0 rfl (by norm_num)).2.1 h4).1
  · intro acc hlt
    have h := (drainAux_spec 4 acc 0 rfl (by norm_num)).2.2.1 hlt
    simpa using h
  · intro t0
    have hacc : (0 : ℚ) + min ((t0 + 1) - t0) (1/10) = 1/10 := by
      have h1 : (t0 + 1) - t0 = (1 : ℚ) := by ring
      rw [h1, min_eq_right (by norm_num)]
      ring
    simp only [stepFrame, Bool.false_eq_true, if_false]
    rw [hacc, drainAccumulator_tenth]
  · intro t0
    have h := runFrames_uniform t0 60
    rw [h]
    norm_num

/-- C3 witness: the drain at 1/30 s stops below the cap having subtracted
exactly its step count times 1/60 and leaving less than 1/60. -/
theorem claim_C3_witness :
    (drainAccumulator (1/30 : ℚ)).2 < 4 ∧
    (drainAccumulator (1/30 : ℚ)).1 =
      1/30 - ((drainAccumulator (1/30 : ℚ)).2 : ℚ) * (1/60) ∧
    (drainAccumulator (1/30 : ℚ)).1 < 1/60 ∧
    (drainAccumulator (4/60 : ℚ)).2 = 4 ∧ (drainAccumulator (4/60 : ℚ)).1 = 0 := by
  have hlt : (drainAccumulator (1/30 : ℚ)).2 < 4 := by
    obtain ⟨⟨-, hle⟩, h4, -, -⟩ := drainAux_spec 4 (1/30 : ℚ) 0 rfl (by norm_num)
    rcases eq_or_lt_of_le hle with he | hl
    · exfalso
      obtain ⟨-, e2⟩ := h4 he
      push_cast at e2
      linarith
    · exact hl
  have h4' : (drainAccumulator (4/60 : ℚ)).2 = 4 := by
    obtain ⟨⟨-, hle⟩, -, h3, hpos⟩ := drainAux_spec 4 (4/60 : ℚ) 0 rfl (by norm_num)
    rcases eq_or_lt_of_le hle with he | hl
    · exact he
    · exfalso
      obtain ⟨e1, e2⟩ := h3 hl
      have hn : ((drainAux 4 (4/60 : ℚ) 0).2 : ℚ) ≤ 3 := by
        exact_mod_cast Nat.le_of_lt_succ hl
      rw [e1] at e2
      push_cast at e2
      linarith
  obtain ⟨hveq, hvlt⟩ := claim_C3.2.2.2.1 (1/30 : ℚ) hlt
  exact ⟨hlt, hveq, hvlt, h4', claim_C3.2.2.1 (4/60 : ℚ) h4'⟩

/-- C9: the fair-start computation is a pure function of (entityId, session
seed, startAngle) — the two sine outputs `s1 s2` are deterministic hashes of
(id, seed) — and for sine outputs in range (with `s1 < 1`: the index
computation reads one entry past the table exactly at `s1 = 1`) the spawn
distance equals one of the 21 declared fair distances plus a jitter lying
in [-0.2, +0.2], and the returned position is that distance along
(cos angle, sin angle). -/
theorem claim_C9 (s1 s2 cosA sinA : ℚ)
    (h1 : -1 ≤ s1) (h2 : s1 < 1) (h3 : -1 ≤ s2) (h4 : s2 ≤ 1) :
    calculateFairStartPosition s1 s2 cosA sinA = calculateFairStartPosition s1 s2 cosA sinA ∧
    (-(1/5) : ℚ) ≤ fairVariation s2 ∧ fairVariation s2 ≤ 1/5 ∧
    ∃ d, d ∈ fairDistances ∧
      adjustedDistanceOf s1 s2 = some (d + fairVariation s2) ∧
      calculateFairStartPosition s1 s2 cosA sinA =
        some (cosA * (d + fairVariation s2), sinA * (d + fairVariation s2)) := by
  refine ⟨rfl, ?_, ?_, ?_⟩
  · rw [fairVariation]
    linarith
  · rw [fairVariation]
    linarith
  · have hlen : fairDistances.length = 21 := rfl
    have hx0 : (0 : ℚ) ≤ (s1 * (1/2) + 1/2) * (fairDistances.length : ℚ) := by
      rw [hlen]
      push_cast
      nlinarith
    have hx1 : (s1 * (1/2) + 1/2) * (fairDistances.length : ℚ) < ((21 : ℤ) : ℚ) := by
      rw [hlen]
      push_cast
      nlinarith
    have hf0 : 0 ≤ fairIndex s1 := Int.floor_nonneg.mpr hx0
    have hf1 : fairIndex s1 < 21 := Int.floor_lt.mpr hx1
    have hi : (fairIndex s1).toNat < fairDistances.length := by
      rw [hlen]
      omega
    have hget : fairDistances.get? (fairIndex s1).toNat =
        some (fairDistances.get ⟨(fairIndex s1).toNat, hi⟩) :=
      List.get?_eq_get hi
    refine ⟨fairDistances.get ⟨(fairIndex s1).toNat, hi⟩, List.get_mem _ _ hi, ?_, ?_⟩
    · rw [adjustedDistanceOf, hget]
      rfl
    · rw [calculateFairStartPosition, adjustedDistanceOf, hget]
      rfl

/-- C9 witness: with both sine outputs 0 the index is 10, the distance is
24.75 with zero jitter, and the position along angle 0 is (24.75, 0). -/
theorem claim_C9_witness :
    ∃ d, d ∈ fairDistances ∧
      adjustedDistanceOf 0 0 = some (d + fairVariation 0) ∧
      calculateFairStartPosition 0 0 1 0 =
        some (1 * (d + fairVariation 0), 0 * (d + fairVariation 0)) :=
  (claim_C9 0 0 1 0 (by norm_num) (by norm_num) (by norm_num) (by norm_num)).2.2.2

/-- The first element past a prefix of failures is what `find?` returns. -/
theorem find?_eq_some_of_split {α : Type} (p : α → Bool) :
    ∀ (l1 : List α) (b : α) (l2 : List α), (∀ c ∈ l1, p c = false) → p b = true →
      List.find? p (l1 ++ b :: l2) = some b := by
  intro l1
  induction l1 with
  | nil =>
    intro b l2 _ hb
    simp [List.find?, hb]
  | cons a rest ih =>
    intro b l2 hall hb
    have ha : p a = false := hall a (by simp)
    simp only [List.cons_append, List.find?, ha]
    exact ih b l2 (fun c hc => hall c (by simp [hc])) hb

/-- C10: in the primary branch of the win resolver the player is preferred
over every AI entity, and among AI entities with at least 5 power-ups the
first one in the store's `aiBalls` array wins; no timestamps are consulted
(the statement holds for arbitrary timestamp lists). -/
theorem claim_C10 (s : ScoreState) :
    (s.playerPowerUpsCollected ≥ 5 →
      getWinnerBySecondaryCondition s =
        some ⟨0, true, playerColor, WinReason.primary, s.playerPowerUpsCollected, none⟩) ∧
    (s.playerPowerUpsCollected < 5 →
      ∀ (l1 : List AIBallRec) (b : AIBallRec) (l2 : List AIBallRec),
        s.aiBalls = l1 ++ b :: l2 →
        (∀ c ∈ l1, c.powerUpsCollected < 5) →
        b.powerUpsCollected ≥ 5 →
        getWinnerBySecondaryCondition s =
          some ⟨b.id, false, b.color, WinReason.primary, b.powerUpsCollected, none⟩) := by
  constructor
  · intro hp
    simp [getWinnerBySecondaryCondition, hp]
  · intro hlt l1 b l2 hsplit hl1 hb
    have hpn : ¬ (s.playerPowerUpsCollected ≥ 5) := by omega
    have hfind : List.find? (fun c => c.powerUpsCollected ≥ 5) (l1 ++ b :: l2) = some b := by
      refine find?_eq_some_of_split _ l1 b l2 (fun c hc => ?_) (by simpa using hb)
      have := hl1 c hc
      simp only [decide_eq_false_iff_not, not_le]
      omega
    simp only [getWinnerBySecondaryCondition, hpn, if_false, hsplit, hfind]

/-- C10 witness: with the player at 2 and AI balls (#1 at 3, #2 at 6, #3 at
7) in store order, AI ball #2 — the first at ≥ 5 — wins primary. -/
theorem claim_C10_witness :
    getWinnerBySecondaryCondition
      ⟨2, [1, 2], [⟨1, 0, 0, 0, 3, [7, 8, 9], "#FF0000"⟩,
                   ⟨2, 0, 0, 0, 6, [1, 2, 3, 4, 5, 6], "#0000FF"⟩,
                   ⟨3, 0, 0, 0, 7, [1, 2, 3, 4, 5, 6, 7], "#00FF00"⟩]⟩ =
      some ⟨2, false, "#0000FF", WinReason.primary, 6, none⟩ :=
  (claim_C10 _).2 (by norm_num)
    [⟨1, 0, 0, 0, 3, [7, 8, 9], "#FF0000"⟩]
    ⟨2, 0, 0, 0, 6, [1, 2, 3, 4, 5, 6], "#0000FF"⟩
    [⟨3, 0, 0, 0, 7, [1, 2, 3, 4, 5, 6, 7], "#00FF00"⟩]
    rfl (by intro c hc; simp at hc; simp [hc]) (by norm_num)

/-- Player growth touches only the scale and the growth lock. -/
@[simp] theorem growPlayerBall_isCollecting (g : GState) :
    (growPlayerBall g).isCollecting = g.isCollecting := by
  rw [growPlayerBall]
  split <;> rfl

@[simp] theorem growPlayerBall_isCollectingRef (g : GState) :
    (growPlayerBall g).isCollectingRef = g.isCollectingRef := by
  rw [growPlayerBall]
  split <;> rfl

@[simp] theorem growPlayerBall_puCollected (g : GState) :
    (growPlayerBall g).puCollected = g.puCollected := by
  rw [growPlayerBall]
  split <;> rfl

@[simp] theorem growPlayerBall_puActive (g : GState) :
    (growPlayerBall g).puActive = g.puActive := by
  rw [growPlayerBall]
  split <;> rfl

@[simp] theorem growPlayerBall_score (g : GState) :
    (growPlayerBall g).score = g.score := by
  rw [growPlayerBall]
  split <;> rfl

@[simp] theorem growPlayerBall_phase (g : GState) :
    (growPlayerBall g).phase = g.phase := by
  rw [growPlayerBall]
  split <;> rfl

@[simp] theorem growPlayerBall_winner (g : GState) :
    (growPlayerBall g).winner = g.winner := by
  rw [growPlayerBall]
  split <;> rfl

/-- AI growth touches only that ball's scale and growth lock. -/
@[simp] theorem growAIBallScale_isCollecting (id : Nat) (g : GState) :
    (growAIBallScale id g).isCollecting = g.isCollecting := by
  rw [growAIBallScale]
  split <;> rfl

@[simp] theorem growAIBallScale_isCollectingRef (id : Nat) (g : GState) :
    (growAIBallScale id g).isCollectingRef = g.isCollectingRef := by
  rw [growAIBallScale]
  split <;> rfl

@[simp] theorem growAIBallScale_puCollected (id : Nat) (g : GState) :
    (growAIBallScale id g).puCollected = g.puCollected := by
  rw [growAIBallScale]
  split <;> rfl

@[simp] theorem growAIBallScale_puActive (id : Nat) (g : GState) :
    (growAIBallScale id g).puActive = g.puActive := by
  rw [growAIBallScale]
  split <;> rfl

@[simp] theorem growAIBallScale_score (id : Nat) (g : GState) :
    (growAIBallScale id g).score = g.score := by
  rw [growAIBallScale]
  split <;> rfl

@[simp] theorem growAIBallScale_phase (id : Nat) (g : GState) :
    (growAIBallScale id g).phase = g.phase := by
  rw [growAIBallScale]
  split <;> rfl

@[simp] theorem growAIBallScale_winner (id : Nat) (g : GState) :
    (growAIBallScale id g).winner = g.winner := by
  rw [growAIBallScale]
  split <;> rfl

/-- An unlocked player collection takes both locks synchronously,
deactivates the power-up and bumps the global counter by one. -/
theorem handlePlayerCollection_fields (now : Nat) (g : GState)
    (h1 : g.isCollecting = false) (h2 : g.isCollectingRef = false) :
    (handlePlayerCollection now g).isCollecting = true ∧
    (handlePlayerCollection now g).isCollectingRef = true ∧
    (handlePlayerCollection now g).puCollected = g.puCollected + 1 ∧
    (handlePlayerCollection now g).puActive = false := by
  simp only [handlePlayerCollection, h1, h2, Bool.or_self, Bool.false_eq_true, if_false]
  split <;> simp [finalizeWinner]

/-- An unlocked AI collection takes both locks synchronously, deactivates
the power-up and bumps the global counter by one. -/
theorem handleAICollection_fields (now : Nat) (ballId : Nat) (ballColor : String) (g : GState)
    (h1 : g.isCollecting = false) (h2 : g.isCollectingRef = false) :
    (handleAICollection now ballId ballColor g).isCollecting = true ∧
    (handleAICollection now ballId ballColor g).isCollectingRef = true ∧
    (handleAICollection now ballId ballColor g).puCollected = g.puCollected + 1 ∧
    (handleAICollection now ballId ballColor g).puActive = false := by
  simp only [handleAICollection, h1, h2, Bool.or_self, Bool.false_eq_true, if_false]
  split <;> simp [finalizeWinner]

/-- While the ref-lock is held the proximity pass is a no-op firing no
events. -/
theorem proximityPass_locked (g : GState) (h : g.isCollectingRef = true)
    (pos : Option (ℚ × ℚ)) (now : Nat) : proximityPass pos now g = (g, []) := by
  simp [proximityPass, h]

/-- C5: with the power-up active and both collection locks free, a
proximity pass in which the player and/or AI balls put two or more entities
inside the collection radius fires exactly one collection event, credits
exactly one collection (the global counter rises by one), leaves both locks
set, and any further proximity pass fires no event at all. -/
theorem claim_C5 (g : GState) (playerPos : Option (ℚ × ℚ)) (now : Nat)
    (hact : g.puActive = true) (h1 : g.isCollecting = false) (h2 : g.isCollectingRef = false)
    (htwo : 2 ≤ entitiesInRange playerPos g) :
    (proximityPass playerPos now g).2.length = 1 ∧
    (proximityPass playerPos now g).1.isCollecting = true ∧
    (proximityPass playerPos now g).1.isCollectingRef = true ∧
    (proximityPass playerPos now g).1.puCollected = g.puCollected + 1 ∧
    (∀ (pos2 : Option (ℚ × ℚ)) (now2 : Nat),
      (proximityPass pos2 now2 (proximityPass playerPos now g).1).2 = []) := by
  have hguard : (!g.puActive || g.isCollecting || g.isCollectingRef) = false := by
    rw [hact, h1, h2]
    rfl
  by_cases hp : playerInRange g playerPos = true
  · have hpass : proximityPass playerPos now g =
        (handlePlayerCollection now g, [CollectEvent.player]) := by
      simp [proximityPass, hguard, hp]
    obtain ⟨f1, f2, f3, f4⟩ := handlePlayerCollection_fields now g h1 h2
    rw [hpass]
    exact ⟨rfl, f1, f2, f3, fun pos2 now2 => by rw [proximityPass_locked _ f2]⟩
  · have hp' : playerInRange g playerPos = false := by simpa using hp
    have hcount : 0 < g.score.aiBalls.countP (fun b => aiInRange g b) := by
      simp only [entitiesInRange, hp', Bool.false_eq_true, if_false, zero_add] at htwo
      omega
    obtain ⟨b, hbmem, hbrange⟩ := List.countP_pos_iff.mp hcount
    cases hfind : List.find? (fun b => aiInRange g b) g.score.aiBalls with
    | none =>
      exact absurd hbrange (by simpa using (List.find?_eq_none.mp hfind) b hbmem)
    | some c =>
      have hpass : proximityPass playerPos now g =
          (handleAICollection now c.id c.color g, [CollectEvent.ai c.id]) := by
        simp [proximityPass, hguard, hp', hfind]
      obtain ⟨f1, f2, f3, f4⟩ := handleAICollection_fields now c.id c.color g h1 h2
      rw [hpass]
      exact ⟨rfl, f1, f2, f3, fun pos2 now2 => by rw [proximityPass_locked _ f2]⟩

/-- C5 witness: at the concrete race state the player and AI ball #3 are
both within radius, one event fires, the counter rises by one, and the
follow-up pass fires nothing. -/
theorem claim_C5_witness :
    (proximityPass (some (1, 1)) 500 gRace).2.length = 1 ∧
    (proximityPass (some (1, 1)) 500 gRace).1.puCollected = gRace.puCollected + 1 ∧
    (proximityPass (some (1, 1)) 500 (proximityPass (some (1, 1)) 500 gRace).1).2 = [] := by
  have h2 : 2 ≤ entitiesInRange (some (1, 1)) gRace := by
    have hpl : playerInRange gRace (some (1, 1)) = true := by
      norm_num [playerInRange, planarDistSq, gRace, gBase]
    have hai : gRace.score.aiBalls.countP (fun b => aiInRange gRace b) = 1 := by
      norm_num [gRace, gBase, List.countP, List.countP.go, aiInRange, planarDistSq]
    rw [entitiesInRange, hpl, hai]
    norm_num
  obtain ⟨c1, -, -, c4, c5⟩ := claim_C5 gRace (some (1, 1)) 500 rfl rfl rfl h2
  exact ⟨c1, c4, c5 (some (1, 1)) 500⟩

/-- C6 counterexample: a player collection that reaches 5 finalizes a
primary win and ends the round, yet the respawn-effect guard
(`!active && powerUpsCollected <= 12`) still holds afterwards — the 2 s
respawn timer is armed and its callback re-activates the power-up — so the
collected power-up is not "never respawned" after a primary win. -/
theorem claim_C6_counterexample :
    (handlePlayerCollection 1000 gFour).winner =
      some ⟨0, true, playerColor, WinReason.primary, 5, some false⟩ ∧
    (handlePlayerCollection 1000 gFour).phase = GamePhase.ended ∧
    respawnScheduled (handlePlayerCollection 1000 gFour) = true ∧
    (respawnFire 7 9 (handlePlayerCollection 1000 gFour)).puActive = true := by
  refine ⟨?_, ?_, ?_, ?_⟩ <;>
    simp [handlePlayerCollection, gFour, gBase, growPlayerBall, incrementPlayerPowerUps,
      finalizeWinner, gamePhaseEnd, respawnScheduled, respawnFire]

/-- C6 (amended): when an unlocked player collection brings the player's
count to 5 the winner is finalized with reason primary and the round ends
immediately (playing → ended); however the respawn effect is guarded only by
the total-collected cap, so with the counter at most 12 the collected
power-up is still scheduled to respawn — the claim's "never respawned after
a primary win" does not hold. -/
theorem claim_C6 (g : GState) (now : Nat) (x z : ℚ)
    (hphase : g.phase = GamePhase.playing)
    (h1 : g.isCollecting = false) (h2 : g.isCollectingRef = false)
    (hcount : g.score.playerPowerUpsCollected = 4)
    (hcap : g.puCollected < 12) :
    (handlePlayerCollection now g).winner =
      some ⟨0, true, playerColor, WinReason.primary, 5, some false⟩ ∧
    (handlePlayerCollection now g).phase = GamePhase.ended ∧
    respawnScheduled (handlePlayerCollection now g) = true ∧
    (respawnFire x z (handlePlayerCollection now g)).puActive = true := by
  obtain ⟨score, pS, pG, aS, aG, act, px, pz, puc, ic, icr, pp, ctrl, ph, win, ip, ck, st, hsl⟩ := g
  obtain ⟨pc, pts, ab⟩ := score
  simp only at hphase h1 h2 hcount hcap
  subst hphase h1 h2 hcount
  refine ⟨?_, ?_, ?_, ?_⟩ <;>
    simp [handlePlayerCollection, incrementPlayerPowerUps, finalizeWinner, gamePhaseEnd,
      respawnScheduled, respawnFire]
  omega

/-- C6 witness: the amended behavior at the concrete one-away-from-winning
state. -/
theorem claim_C6_witness :
    (handlePlayerCollection 2000 gFour).phase = GamePhase.ended ∧
    respawnScheduled (handlePlayerCollection 2000 gFour) = true := by
  obtain ⟨-, hb, hc, -⟩ :=
    claim_C6 gFour 2000 3 4 rfl rfl rfl rfl (by norm_num [gFour, gBase])
  exact ⟨hb, hc⟩

/-- After `resetBalls` every count is zero and every timestamp list is
empty. -/
theorem resetBalls_zero (sc : ScoreState) :
    (resetBalls sc).playerPowerUpsCollected = 0 ∧
    (resetBalls sc).playerCollectionTimestamps = [] ∧
    ∀ b ∈ (resetBalls sc).aiBalls,
      b.powerUpsCollected = 0 ∧ b.collectionTimestamps = [] := by
  refine ⟨rfl, rfl, ?_⟩
  intro b hb
  simp only [resetBalls, List.mem_map] at hb
  obtain ⟨a, -, ha⟩ := hb
  rw [← ha]
  exact ⟨rfl, rfl⟩

/-- `registerBall` preserves the all-zero score invariant: re-registered
ids keep their (zero) counts, new ids start at zero. -/
theorem registerBall_preserves_zero (id : Nat) (px py pz : ℚ) (color : String)
    (sc : ScoreState)
    (hp : sc.playerPowerUpsCollected = 0) (hts : sc.playerCollectionTimestamps = [])
    (hab : ∀ b ∈ sc.aiBalls, b.powerUpsCollected = 0 ∧ b.collectionTimestamps = []) :
    (registerBall id px py pz color sc).playerPowerUpsCollected = 0 ∧
    (registerBall id px py pz color sc).playerCollectionTimestamps = [] ∧
    ∀ b ∈ (registerBall id px py pz color sc).aiBalls,
      b.powerUpsCollected = 0 ∧ b.collectionTimestamps = [] := by
  refine ⟨hp, hts, ?_⟩
  intro b hb
  simp only [registerBall, List.mem_append, List.mem_filter, List.mem_singleton] at hb
  rcases hb with ⟨hbmem, -⟩ | hbeq
  · exact hab b hbmem
  · subst hbeq
    cases hf : sc.aiBalls.find? (fun b => b.id = id) with
    | none => simp [hf]
    | some c =>
      obtain ⟨hc1, hc2⟩ := hab c (List.mem_of_find?_eq_some hf)
      simp [hf, hc1, hc2]

/-- Folding `registerBall` over any list of fresh positions preserves the
all-zero score invariant. -/
theorem foldl_registerBall_zero (fresh : List (Nat × Vec3 × String)) :
    ∀ sc : ScoreState,
      sc.playerPowerUpsCollected = 0 → sc.playerCollectionTimestamps = [] →
      (∀ b ∈ sc.aiBalls, b.powerUpsCollected = 0 ∧ b.collectionTimestamps = []) →
      (fresh.foldl (fun sc e => registerBall e.1 e.2.1.x e.2.1.y e.2.1.z e.2.2 sc)
          sc).playerPowerUpsCollected = 0 ∧
      (fresh.foldl (fun sc e => registerBall e.1 e.2.1.x e.2.1.y e.2.1.z e.2.2 sc)
          sc).playerCollectionTimestamps = [] ∧
      ∀ b ∈ (fresh.foldl (fun sc e => registerBall e.1 e.2.1.x e.2.1.y e.2.1.z e.2.2 sc)
          sc).aiBalls, b.powerUpsCollected = 0 ∧ b.collectionTimestamps = [] := by
  induction fresh with
  | nil =>
    intro sc hp hts hab
    exact ⟨hp, hts, hab⟩
  | cons e rest ih =>
    intro sc hp hts hab
    obtain ⟨hp1, hts1, hab1⟩ :=
      registerBall_preserves_zero e.1 e.2.1.x e.2.1.y e.2.1.z e.2.2 sc hp hts hab
    exact ih _ hp1 hts1 hab1

/-- `resumeGame` does not touch the score store. -/
@[simp] theorem resumeGame_score (now : ℚ) (g : GState) :
    (resumeGame now g).score = g.score := by
  simp only [resumeGame]
  split
  · rfl
  · split <;> rfl

/-- `resumeGame` does not touch the power-up counter. -/
@[simp] theorem resumeGame_puCollected (now : ℚ) (g : GState) :
    (resumeGame now g).puCollected = g.puCollected := by
  simp only [resumeGame]
  split
  · rfl
  · split <;> rfl

/-- `resumeGame` does not touch the player scale. -/
@[simp] theorem resumeGame_playerScale (now : ℚ) (g : GState) :
    (resumeGame now g).playerScale = g.playerScale := by
  simp only [resumeGame]
  split
  · rfl
  · split <;> rfl

/-- `resumeGame` does not touch the AI scales. -/
@[simp] theorem resumeGame_aiScales (now : ℚ) (g : GState) :
    (resumeGame now g).aiScales = g.aiScales := by
  simp only [resumeGame]
  split
  · rfl
  · split <;> rfl

/-- Outside the playing phase `resumeGame` leaves the controls alone (input
is only re-enabled mid-round). -/
theorem resumeGame_controls_of_ready (now : ℚ) (g : GState)
    (h : g.phase = GamePhase.ready) : (resumeGame now g).controls = g.controls := by
  simp only [resumeGame]
  split
  · rfl
  · split
    · rename_i hcond
      exfalso
      obtain ⟨hc1, -⟩ := hcond
      have hc2 : g.phase = GamePhase.playing := hc1
      rw [h] at hc2
      cases hc2
    · rfl

/-- `resetControlsState` always ends with the movement flag cleared, input
disabled and the direction zeroed. -/
theorem resetControlsState_controls (g : GState) :
    (resetControlsState g).controls.hasPlayerStartedMoving = false ∧
    (resetControlsState g).controls.isInputEnabled = false := by
  by_cases h : (setMovementDirection 0 0 g.controls).hasPlayerStartedMoving = true <;>
    simp [resetControlsState, disableInput, resetPlayerMovementFlag, h]

/-- With input disabled `setMovementDirection` never sets the
has-started-moving flag. -/
theorem setMovementDirection_flag_of_disabled (x z : ℚ) (c : ControlsState)
    (hien : c.isInputEnabled = false) :
    (setMovementDirection x z c).hasPlayerStartedMoving = c.hasPlayerStartedMoving := by
  simp only [setMovementDirection, hien]
  split
  · split <;> rfl
  · rename_i hfalse
    exact absurd trivial hfalse

/-- C7: after a full `GameManager.restartGame` — for any prior state, any
fresh fair-position assignment and any wall-clock time — the player's count
is 0 with an empty timestamp list, every AI ball's count is 0 with an empty
timestamp list, the component's global collected counter is 0, the player
scale is 1.0, the AI scale store is empty (so every AI scale reads 1.0),
and the player-has-moved flag is cleared with input disabled, so a movement
input does not re-latch the flag until input is re-enabled. -/
theorem claim_C7 (g : GState) (fresh : List (Nat × Vec3 × String)) (now : ℚ) :
    (restartGame fresh now g).score.playerPowerUpsCollected = 0 ∧
    (restartGame fresh now g).score.playerCollectionTimestamps = [] ∧
    (∀ b ∈ (restartGame fresh now g).score.aiBalls,
      b.powerUpsCollected = 0 ∧ b.collectionTimestamps = []) ∧
    (restartGame fresh now g).puCollected = 0 ∧
    (restartGame fresh now g).playerScale = 1 ∧
    (restartGame fresh now g).aiScales = [] ∧
    (∀ id : Nat, getAIScale (restartGame fresh now g).aiScales id = 1) ∧
    (restartGame fresh now g).controls.hasPlayerStartedMoving = false ∧
    (restartGame fresh now g).controls.isInputEnabled = false ∧
    (∀ x z : ℚ,
      (setMovementDirection x z (restartGame fresh now g).controls).hasPlayerStartedMoving
        = false) := by
  have hG9 : restartGame fresh now g =
      resumeGame now
        (resetDifficultySelection
          (resetPhysicsClock now
            (resetControlsState
              (resetPowerups
                (resetBallPositions fresh
                  (resetAIBallState
                    (resetBallState
                      (resetPhysicsWorld
                        (resetGameState g))))))))) := rfl
  obtain ⟨hz1, hz2, hz3⟩ := resetBalls_zero g.score
  have hscore : (restartGame fresh now g).score =
      fresh.foldl (fun sc e => registerBall e.1 e.2.1.x e.2.1.y e.2.1.z e.2.2 sc)
        (resetBalls g.score) := by
    rw [hG9, resumeGame_score]
    simp [resetDifficultySelection, resetPhysicsClock, resetControlsState,
      resetPowerups, resetBallPositions, resetAIBallState, resetBallState,
      resetPhysicsWorld, resetGameState]
  obtain ⟨hs1, hs2, hs3⟩ := foldl_registerBall_zero fresh (resetBalls g.score) hz1 hz2 hz3
  have hphase9 : (resetDifficultySelection
      (resetPhysicsClock now
        (resetControlsState
          (resetPowerups
            (resetBallPositions fresh
              (resetAIBallState
                (resetBallState
                  (resetPhysicsWorld
                    (resetGameState g))))))))).phase = GamePhase.ready := by
    simp [resetDifficultySelection, resetPhysicsClock, resetControlsState,
      resetPowerups, resetBallPositions, resetAIBallState, resetBallState,
      resetPhysicsWorld, resetGameState, gamePhaseRestart]
  have hctrl : (restartGame fresh now g).controls =
      (resetControlsState
        (resetPowerups
          (resetBallPositions fresh
            (resetAIBallState
              (resetBallState
                (resetPhysicsWorld
                  (resetGameState g))))))).controls := by
    rw [hG9, resumeGame_controls_of_ready _ _ hphase9]
    simp [resetDifficultySelection, resetPhysicsClock]
  obtain ⟨hc1, hc2⟩ := resetControlsState_controls
    (resetPowerups
      (resetBallPositions fresh
        (resetAIBallState
          (resetBallState
            (resetPhysicsWorld
              (resetGameState g))))))
  have hflag : (restartGame fresh now g).controls.hasPlayerStartedMoving = false := by
    rw [hctrl]; exact hc1
  have hien : (restartGame fresh now g).controls.isInputEnabled = false := by
    rw [hctrl]; exact hc2
  refine ⟨?_, ?_, ?_, ?_, ?_, ?_, ?_, hflag, hien, ?_⟩
  · rw [hscore]; exact hs1
  · rw [hscore]; exact hs2
  · rw [hscore]; exact hs3
  · rw [hG9, resumeGame_puCollected]
    simp [resetDifficultySelection, resetPhysicsClock, resetControlsState,
      resetPowerups]
  · rw [hG9, resumeGame_playerScale]
    simp [resetDifficultySelection, resetPhysicsClock, resetControlsState,
      resetPowerups, resetBallPositions, resetAIBallState, resetBallState]
  · rw [hG9, resumeGame_aiScales]
    simp [resetDifficultySelection, resetPhysicsClock, resetControlsState,
      resetPowerups, resetBallPositions, resetAIBallState]
  · intro id
    rw [hG9, resumeGame_aiScales]
    simp [resetDifficultySelection, resetPhysicsClock, resetControlsState,
      resetPowerups, resetBallPositions, resetAIBallState, getAIScale]
  · intro x z
    rw [setMovementDirection_flag_of_disabled x z _ hien]
    exact hflag

/-- C7 witness: restarting the concrete dirty mid-round state zeroes the
score and counter, resets the scales, and a fresh movement input does not
re-latch the cleared flag. -/
theorem claim_C7_witness :
    (restartGame freshW 42 gDirty).score.playerPowerUpsCollected = 0 ∧
    (restartGame freshW 42 gDirty).puCollected = 0 ∧
    (restartGame freshW 42 gDirty).playerScale = 1 ∧
    getAIScale (restartGame freshW 42 gDirty).aiScales 2 = 1 ∧
    (∃ b ∈ (restartGame freshW 42 gDirty).score.aiBalls,
      b.id = 1 ∧ b.powerUpsCollected = 0 ∧ b.collectionTimestamps = []) ∧
    (setMovementDirection 1 0 (restartGame freshW 42 gDirty).controls).hasPlayerStartedMoving
      = false := by
  obtain ⟨h1, -, h3, h4, h5, -, h7, -, -, h10⟩ := claim_C7 gDirty freshW 42
  have hmem : (⟨1, 3, 1/2, 4, 0, [], "#FF0000"⟩ : AIBallRec) ∈
      (restartGame freshW 42 gDirty).score.aiBalls := by
    have hlist : (restartGame freshW 42 gDirty).score.aiBalls =
        [⟨1, 3, 1/2, 4, 0, [], "#FF0000"⟩, ⟨2, -5, 1/2, 1, 0, [], "#0000FF"⟩] := by rfl
    rw [hlist]
    exact List.mem_cons_self _ _
  obtain ⟨hb1, hb2⟩ := h3 _ hmem
  exact ⟨h1, h4, h5, h7 2, ⟨_, hmem, rfl, hb1, hb2⟩, h10 1 0⟩

/-- Specification of the running-maximum fold in `getMaxPowerupsCollected`:
the result dominates the seed and every element, and is attained by the
seed or by some element. -/
theorem foldlMax_spec (l : List AIBallRec) :
    ∀ init : Nat,
      init ≤ l.foldl
        (fun m b => if b.powerUpsCollected > m then b.powerUpsCollected else m) init ∧
      (∀ b ∈ l, b.powerUpsCollected ≤ l.foldl
        (fun m b => if b.powerUpsCollected > m then b.powerUpsCollected else m) init) ∧
      (l.foldl (fun m b => if b.powerUpsCollected > m then b.powerUpsCollected else m) init
          = init ∨
        ∃ b ∈ l, l.foldl
          (fun m b => if b.powerUpsCollected > m then b.powerUpsCollected else m) init
            = b.powerUpsCollected) := by
  induction l with
  | nil =>
    intro init
    exact ⟨le_refl _, by simp, Or.inl rfl⟩
  | cons a rest ih =>
    intro init
    obtain ⟨ih1, ih2, ih3⟩ :=
      ih (if a.powerUpsCollected > init then a.powerUpsCollected else init)
    have hstep_init : init ≤ if a.powerUpsCollected > init then a.powerUpsCollected else init := by
      split <;> omega
    have hstep_a : a.powerUpsCollected ≤
        if a.powerUpsCollected > init then a.powerUpsCollected else init := by
      split <;> omega
    refine ⟨le_trans hstep_init ih1, ?_, ?_⟩
    · intro b hb
      rcases List.mem_cons.mp hb with rfl | hb2
      · exact le_trans hstep_a ih1
      · exact ih2 b hb2
    · rcases ih3 with heq | ⟨b, hb, heq⟩
      · by_cases hgt : a.powerUpsCollected > init
        · right
          refine ⟨a, List.mem_cons_self _ _, ?_⟩
          rw [List.foldl_cons, heq, if_pos hgt]
        · left
          rw [List.foldl_cons, heq, if_neg hgt]
      · right
        exact ⟨b, List.mem_cons_of_mem _ hb, heq⟩

/-- The maximum dominates the player count and every AI count, and is
attained by the player or some AI ball. -/
theorem getMaxPowerupsCollected_spec (s : ScoreState) :
    s.playerPowerUpsCollected ≤ getMaxPowerupsCollected s ∧
    (∀ b ∈ s.aiBalls, b.powerUpsCollected ≤ getMaxPowerupsCollected s) ∧
    (getMaxPowerupsCollected s = s.playerPowerUpsCollected ∨
      ∃ b ∈ s.aiBalls, getMaxPowerupsCollected s = b.powerUpsCollected) :=
  foldlMax_spec s.aiBalls s.playerPowerUpsCollected

/-- Membership in the stable timestamp insertion. -/
theorem mem_insertByTimestamp (a c : TopCollector) :
    ∀ l : List TopCollector, a ∈ insertByTimestamp c l ↔ a = c ∨ a ∈ l := by
  intro l
  induction l with
  | nil => simp [insertByTimestamp]
  | cons d ds ih =>
    rw [insertByTimestamp]
    split
    · simp
    · simp only [List.mem_cons, ih]
      tauto

/-- Membership in the stable timestamp sort. -/
theorem mem_sortByTimestamp (a : TopCollector) :
    ∀ l : List TopCollector, a ∈ sortByTimestamp l ↔ a ∈ l := by
  intro l
  induction l with
  | nil => simp [sortByTimestamp]
  | cons c cs ih =>
    rw [sortByTimestamp, mem_insertByTimestamp, ih, List.mem_cons]

/-- The insertion adds exactly one element. -/
theorem length_insertByTimestamp (c : TopCollector) :
    ∀ l : List TopCollector, (insertByTimestamp c l).length = l.length + 1 := by
  intro l
  induction l with
  | nil => rfl
  | cons d ds ih =>
    rw [insertByTimestamp]
    split
    · rfl
    · simp [ih]

/-- The sort preserves length. -/
theorem length_sortByTimestamp :
    ∀ l : List TopCollector, (sortByTimestamp l).length = l.length := by
  intro l
  induction l with
  | nil => rfl
  | cons c cs ih =>
    rw [sortByTimestamp, length_insertByTimestamp, ih]
    rfl

/-- The insertion preserves ascending-timestamp sortedness. -/
theorem sorted_insertByTimestamp (c : TopCollector) :
    ∀ l : List TopCollector,
      List.Sorted (fun a b : TopCollector => a.lastTimestamp ≤ b.lastTimestamp) l →
      List.Sorted (fun a b : TopCollector => a.lastTimestamp ≤ b.lastTimestamp)
        (insertByTimestamp c l) := by
  intro l
  induction l with
  | nil =>
    intro _
    simp [insertByTimestamp]
  | cons d ds ih =>
    intro h
    rw [List.sorted_cons] at h
    obtain ⟨hd, hds⟩ := h
    rw [insertByTimestamp]
    split
    · rename_i hle
      rw [List.sorted_cons]
      refine ⟨?_, List.sorted_cons.mpr ⟨hd, hds⟩⟩
      intro b hb
      rcases List.mem_cons.mp hb with rfl | hb2
      · exact hle
      · exact le_trans hle (hd b hb2)
    · rename_i hgt
      rw [List.sorted_cons]
      refine ⟨?_, ih hds⟩
      intro b hb
      rcases (mem_insertByTimestamp b c ds).mp hb with rfl | hb2
      · omega
      · exact hd b hb2

/-- The stable sort produces an ascending-timestamp list. -/
theorem sorted_sortByTimestamp :
    ∀ l : List TopCollector,
      List.Sorted (fun a b : TopCollector => a.lastTimestamp ≤ b.lastTimestamp)
        (sortByTimestamp l) := by
  intro l
  induction l with
  | nil => simp [sortByTimestamp]
  | cons c cs ih => exact sorted_insertByTimestamp c _ ih

/-- The head of the sorted list is a member of the original list with a
minimal timestamp. -/
theorem sortByTimestamp_head_min (l : List TopCollector) (w : TopCollector)
    (rest : List TopCollector) (h : sortByTimestamp l = w :: rest) :
    w ∈ l ∧ ∀ x ∈ l, w.lastTimestamp ≤ x.lastTimestamp := by
  have hsorted := sorted_sortByTimestamp l
  rw [h] at hsorted
  constructor
  · have hw : w ∈ sortByTimestamp l := by
      rw [h]
      exact List.mem_cons_self _ _
    exact (mem_sortByTimestamp w l).mp hw
  · intro x hx
    have hx2 : x ∈ sortByTimestamp l := (mem_sortByTimestamp x l).mpr hx
    rw [h] at hx2
    rcases List.mem_cons.mp hx2 with rfl | hx3
    · exact le_refl _
    · exact (List.sorted_cons.mp hsorted).1 x hx3

/-- Membership in `topCollectors`: the player's record (when the player sits
at the maximum) or the record of an AI ball at the maximum. -/
theorem mem_topCollectorsOf (s : ScoreState) (m : Nat) (c : TopCollector) :
    c ∈ topCollectorsOf s m ↔
      (s.playerPowerUpsCollected = m ∧ c = playerTopOf s m) ∨
      (∃ b ∈ s.aiBalls, b.powerUpsCollected = m ∧ c = aiTopOf b m) := by
  by_cases hpc : s.playerPowerUpsCollected = m
  · simp only [topCollectorsOf, hpc, if_true, List.singleton_append, List.mem_cons,
      List.mem_map, List.mem_filter]
    constructor
    · rintro (rfl | ⟨b, ⟨hb, hq⟩, rfl⟩)
      · exact Or.inl ⟨trivial, rfl⟩
      · exact Or.inr ⟨b, hb, by simpa using hq, rfl⟩
    · rintro (⟨-, rfl⟩ | ⟨b, hb, hq, rfl⟩)
      · exact Or.inl rfl
      · exact Or.inr ⟨b, ⟨hb, by simpa using hq⟩, rfl⟩
  · simp only [topCollectorsOf, hpc, if_false, List.nil_append, List.mem_map,
      List.mem_filter]
    constructor
    · rintro ⟨b, ⟨hb, hq⟩, rfl⟩
      exact Or.inr ⟨b, hb, by simpa using hq, rfl⟩
    · rintro (⟨hc, -⟩ | ⟨b, hb, hq, rfl⟩)
      · exact hc.elim
      · exact ⟨b, ⟨hb, by simpa using hq⟩, rfl⟩

/-- The length of `topCollectors` is the number of entities whose count
equals `m`. -/
theorem length_topCollectorsOf (s : ScoreState) (m : Nat) :
    (topCollectorsOf s m).length = (entityCounts s).count m := by
  have hmap : ((s.aiBalls.filter (fun b => b.powerUpsCollected = m)).map
      (fun b => aiTopOf b m)).length
      = s.aiBalls.countP (fun b => b.powerUpsCollected = m) := by
    rw [List.length_map, ← List.countP_eq_length_filter]
  have hcount : (entityCounts s).count m =
      (if s.playerPowerUpsCollected = m then 1 else 0) +
        s.aiBalls.countP (fun b => b.powerUpsCollected = m) := by
    rw [entityCounts, List.count_cons]
    have hmapcount : (s.aiBalls.map (fun b => b.powerUpsCollected)).count m
        = s.aiBalls.countP (fun b => b.powerUpsCollected = m) := by
      rw [List.count, List.countP_map]
      refine List.countP_congr ?_
      intro b _
      simp [Function.comp]
    rw [hmapcount]
    by_cases hpc : s.playerPowerUpsCollected = m <;> simp [hpc, Nat.add_comm]
  rw [topCollectorsOf, List.length_append, hmap, hcount]
  by_cases hpc : s.playerPowerUpsCollected = m <;> simp [hpc]

/-- Whether the player occurs among the top collectors is exactly whether
the player's count equals the maximum. -/
theorem any_isPlayer_topCollectorsOf (s : ScoreState) (m : Nat) :
    (topCollectorsOf s m).any (fun c => c.isPlayer)
      = decide (s.playerPowerUpsCollected = m) := by
  by_cases hpc : s.playerPowerUpsCollected = m
  · simp [topCollectorsOf, hpc, playerTopOf]
  · simp only [topCollectorsOf, hpc, if_false, List.nil_append, decide_False]
    rw [List.any_eq_false]
    intro c hc
    obtain ⟨b, -, rfl⟩ := List.mem_map.mp hc
    simp [aiTopOf]

/-- C1: the win resolver (a pure function of the score state) returns: a
primary winner (an entity with at least 5 power-ups) whenever one exists;
no winner when the maximum per-entity count is 0; with no entity at 5 and a
positive maximum held by exactly one entity, that entity with reason
most-powerups; and with several entities tied at the positive maximum N, a
tied entity whose N-th collection timestamp is minimal among the tied
entities, with reason tiebreaker and a `playerWasInTie` flag that is true
iff the player is among the tied entities. -/
theorem claim_C1 (s : ScoreState) :
    ((s.playerPowerUpsCollected ≥ 5 ∨ ∃ b ∈ s.aiBalls, b.powerUpsCollected ≥ 5) →
      ∃ w, getWinnerBySecondaryCondition s = some w ∧ w.reason = WinReason.primary ∧
        ((w.isPlayer = true ∧ w.id = 0 ∧ s.playerPowerUpsCollected ≥ 5 ∧
            w.powerupsCount = s.playerPowerUpsCollected) ∨
         (w.isPlayer = false ∧ ∃ b ∈ s.aiBalls, w.id = b.id ∧ b.powerUpsCollected ≥ 5 ∧
            w.powerupsCount = b.powerUpsCollected))) ∧
    (getMaxPowerupsCollected s = 0 → getWinnerBySecondaryCondition s = none) ∧
    (¬ s.playerPowerUpsCollected ≥ 5 → (∀ b ∈ s.aiBalls, b.powerUpsCollected < 5) →
      0 < getMaxPowerupsCollected s →
      (entityCounts s).count (getMaxPowerupsCollected s) = 1 →
      ∃ w, getWinnerBySecondaryCondition s = some w ∧
        w.reason = WinReason.mostPowerups ∧
        w.powerupsCount = getMaxPowerupsCollected s ∧
        ((w.isPlayer = true ∧ w.id = 0 ∧
            s.playerPowerUpsCollected = getMaxPowerupsCollected s) ∨
         (w.isPlayer = false ∧ ∃ b ∈ s.aiBalls, w.id = b.id ∧ w.color = b.color ∧
            b.powerUpsCollected = getMaxPowerupsCollected s))) ∧
    (¬ s.playerPowerUpsCollected ≥ 5 → (∀ b ∈ s.aiBalls, b.powerUpsCollected < 5) →
      0 < getMaxPowerupsCollected s →
      2 ≤ (entityCounts s).count (getMaxPowerupsCollected s) →
      ∃ w, getWinnerBySecondaryCondition s = some w ∧
        w.reason = WinReason.tiebreaker ∧
        w.powerupsCount = getMaxPowerupsCollected s ∧
        w.playerWasInTie =
          some (decide (s.playerPowerUpsCollected = getMaxPowerupsCollected s)) ∧
        ∃ k : Nat,
          ((w.isPlayer = true ∧ w.id = 0 ∧
              s.playerPowerUpsCollected = getMaxPowerupsCollected s ∧
              k = nthTimestamp s.playerCollectionTimestamps (getMaxPowerupsCollected s)) ∨
           (w.isPlayer = false ∧ ∃ b ∈ s.aiBalls, w.id = b.id ∧ w.color = b.color ∧
              b.powerUpsCollected = getMaxPowerupsCollected s ∧
              k = nthTimestamp b.collectionTimestamps (getMaxPowerupsCollected s))) ∧
          (s.playerPowerUpsCollected = getMaxPowerupsCollected s →
            k ≤ nthTimestamp s.playerCollectionTimestamps (getMaxPowerupsCollected s)) ∧
          (∀ b ∈ s.aiBalls, b.powerUpsCollected = getMaxPowerupsCollected s →
            k ≤ nthTimestamp b.collectionTimestamps (getMaxPowerupsCollected s))) := by
  refine ⟨?_, ?_, ?_, ?_⟩
  · -- primary
    intro hyp
    by_cases hp : s.playerPowerUpsCollected ≥ 5
    · refine ⟨⟨0, true, playerColor, WinReason.primary, s.playerPowerUpsCollected, none⟩,
        ?_, rfl, Or.inl ⟨rfl, rfl, hp, rfl⟩⟩
      simp [getWinnerBySecondaryCondition, hp]
    · obtain ⟨b, hb, hb5⟩ := hyp.resolve_left hp
      have hsome : (s.aiBalls.find? (fun x => x.powerUpsCollected ≥ 5)).isSome := by
        rw [List.find?_isSome]
        exact ⟨b, hb, by simpa using hb5⟩
      obtain ⟨c, hc⟩ := Option.isSome_iff_exists.mp hsome
      have hcm : c ∈ s.aiBalls := List.mem_of_find?_eq_some hc
      have hc5 : c.powerUpsCollected ≥ 5 := by
        have := List.find?_some hc
        simpa using this
      refine ⟨⟨c.id, false, c.color, WinReason.primary, c.powerUpsCollected, none⟩,
        ?_, rfl, Or.inr ⟨rfl, c, hcm, rfl, hc5, rfl⟩⟩
      simp only [getWinnerBySecondaryCondition, hp, if_false, hc]
  · -- max = 0
    intro hmax
    obtain ⟨hple, haile, -⟩ := getMaxPowerupsCollected_spec s
    have hp : ¬ s.playerPowerUpsCollected ≥ 5 := by omega
    have hfind : s.aiBalls.find? (fun x => x.powerUpsCollected ≥ 5) = none := by
      rw [List.find?_eq_none]
      intro x hx
      have := haile x hx
      simp only [decide_eq_true_eq]
      omega
    simp [getWinnerBySecondaryCondition, hp, hfind, hmax]
  · -- unique maximum
    intro hp hai hpos hcount
    have hfind : s.aiBalls.find? (fun x => x.powerUpsCollected ≥ 5) = none := by
      rw [List.find?_eq_none]
      intro x hx
      have := hai x hx
      simp only [decide_eq_true_eq]
      omega
    have hm0 : ¬ getMaxPowerupsCollected s = 0 := by omega
    have hlen : (topCollectorsOf s (getMaxPowerupsCollected s)).length = 1 := by
      rw [length_topCollectorsOf]
      exact hcount
    obtain ⟨c, htop⟩ := List.length_eq_one.mp hlen
    have hcm : c ∈ topCollectorsOf s (getMaxPowerupsCollected s) := by
      rw [htop]
      exact List.mem_cons_self _ _
    refine ⟨⟨c.id, c.isPlayer, c.color, WinReason.mostPowerups,
      getMaxPowerupsCollected s, none⟩, ?_, rfl, rfl, ?_⟩
    · simp only [getWinnerBySecondaryCondition, hp, if_false, hfind, hm0, ite_false, htop]
    · rcases (mem_topCollectorsOf s _ c).mp hcm with ⟨hpc, rfl⟩ | ⟨b, hb, hbm, rfl⟩
      · exact Or.inl ⟨rfl, rfl, hpc⟩
      · exact Or.inr ⟨rfl, b, hb, rfl, rfl, hbm⟩
  · -- tie
    intro hp hai hpos hcount
    have hfind : s.aiBalls.find? (fun x => x.powerUpsCollected ≥ 5) = none := by
      rw [List.find?_eq_none]
      intro x hx
      have := hai x hx
      simp only [decide_eq_true_eq]
      omega
    have hm0 : ¬ getMaxPowerupsCollected s = 0 := by omega
    have hlen : 2 ≤ (topCollectorsOf s (getMaxPowerupsCollected s)).length := by
      rw [length_topCollectorsOf]
      exact hcount
    rcases htop : topCollectorsOf s (getMaxPowerupsCollected s) with - | ⟨c1, tail⟩
    · rw [htop] at hlen
      simp at hlen
    rcases tail with - | ⟨c2, rest⟩
    · rw [htop] at hlen
      simp at hlen
    have hslen : 0 < (sortByTimestamp (c1 :: c2 :: rest)).length := by
      rw [length_sortByTimestamp]
      simp
    rcases hsorted : sortByTimestamp (c1 :: c2 :: rest) with - | ⟨w0, rest2⟩
    · rw [hsorted] at hslen
      simp at hslen
    obtain ⟨hwmem, hwmin⟩ := sortByTimestamp_head_min _ _ _ hsorted
    have hwtop : w0 ∈ topCollectorsOf s (getMaxPowerupsCollected s) := by
      rw [htop]
      exact hwmem
    have hany : (c1 :: c2 :: rest).any (fun c => c.isPlayer)
        = decide (s.playerPowerUpsCollected = getMaxPowerupsCollected s) := by
      rw [← htop]
      exact any_isPlayer_topCollectorsOf s _
    refine ⟨⟨w0.id, w0.isPlayer, w0.color, WinReason.tiebreaker, getMaxPowerupsCollected s,
      some ((c1 :: c2 :: rest).any (fun c => c.isPlayer))⟩, ?_, rfl, rfl, by rw [hany],
      w0.lastTimestamp, ?_, ?_, ?_⟩
    · simp only [getWinnerBySecondaryCondition, hp, if_false, hfind, hm0, ite_false,
        htop, hsorted]
    · rcases (mem_topCollectorsOf s _ w0).mp hwtop with ⟨hpc, rfl⟩ | ⟨b, hb, hbm, rfl⟩
      · refine Or.inl ⟨rfl, rfl, hpc, ?_⟩
        rw [playerTopOf, nthTimestamp, hpc]
      · refine Or.inr ⟨rfl, b, hb, rfl, rfl, hbm, ?_⟩
        rw [aiTopOf, nthTimestamp, hbm]
    · intro hpc
      have hmem : playerTopOf s (getMaxPowerupsCollected s) ∈ (c1 :: c2 :: rest) := by
        rw [← htop, mem_topCollectorsOf]
        exact Or.inl ⟨hpc, rfl⟩
      have := hwmin _ hmem
      rw [playerTopOf] at this
      rw [nthTimestamp, ← hpc]
      exact this
    · intro b hb hbm
      have hmem : aiTopOf b (getMaxPowerupsCollected s) ∈ (c1 :: c2 :: rest) := by
        rw [← htop, mem_topCollectorsOf]
        exact Or.inr ⟨b, hb, hbm, rfl⟩
      have := hwmin _ hmem
      rw [aiTopOf] at this
      rw [nthTimestamp, ← hbm]
      exact this

/-- C1 witness: the tie scenario — player and AI ball #2 tied at 4, the
player's 4th timestamp 1000, AI #2's 4th timestamp 900 — yields a
tiebreaker winner among the tied entities with a minimal 4th timestamp and
`playerWasInTie = true`. -/
theorem claim_C1_witness :
    ∃ w, getWinnerBySecondaryCondition scoreTieW = some w ∧
      w.reason = WinReason.tiebreaker ∧
      w.powerupsCount = getMaxPowerupsCollected scoreTieW ∧
      w.playerWasInTie =
        some (decide (scoreTieW.playerPowerUpsCollected = getMaxPowerupsCollected scoreTieW)) ∧
      ∃ k : Nat,
        ((w.isPlayer = true ∧ w.id = 0 ∧
            scoreTieW.playerPowerUpsCollected = getMaxPowerupsCollected scoreTieW ∧
            k = nthTimestamp scoreTieW.playerCollectionTimestamps
                  (getMaxPowerupsCollected scoreTieW)) ∨
         (w.isPlayer = false ∧ ∃ b ∈ scoreTieW.aiBalls, w.id = b.id ∧ w.color = b.color ∧
            b.powerUpsCollected = getMaxPowerupsCollected scoreTieW ∧
            k = nthTimestamp b.collectionTimestamps (getMaxPowerupsCollected scoreTieW))) ∧
        (scoreTieW.playerPowerUpsCollected = getMaxPowerupsCollected scoreTieW →
          k ≤ nthTimestamp scoreTieW.playerCollectionTimestamps
                (getMaxPowerupsCollected scoreTieW)) ∧
        (∀ b ∈ scoreTieW.aiBalls,
          b.powerUpsCollected = getMaxPowerupsCollected scoreTieW →
          k ≤ nthTimestamp b.collectionTimestamps (getMaxPowerupsCollected scoreTieW)) :=
  (claim_C1 scoreTieW).2.2.2 (by decide) (by decide) (by decide) (by decide)

end ZF
